import Mathlib

/-!
Verification of the daily MailerLite sync script (mailerLiteSync.py).

The Python source is shallowly embedded below: Mongo documents become the
`Contact` structure, the database becomes a map from collection name to a
document list, `strptime` is modelled as a backtracking matcher over the
exact directive sequences the script uses, and fallible Python operations
return `Except PyErr`.  Calls to the network and the per-batch MailerLite
responses are modelled as explicit outcome parameters.
-/

/-- A Python runtime value, as far as the script distinguishes them. -/
inductive PyVal where
  | str (s : String)
  | int (n : Int)
  | noneV
deriving DecidableEq, Repr

/-- The Python exception classes the script distinguishes:
`ValueError` (caught inside the format loops) and everything else
(here `TypeError`, raised e.g. by `strptime`/`re.sub` on non-string input). -/
inductive PyErr where
  | valueError
  | typeError
deriving DecidableEq, Repr

/-- A calendar date, the result of `parsed.date()`. -/
structure Date where
  year : Nat
  month : Nat
  day : Nat
deriving DecidableEq, Repr

/-- Python `date` comparison: lexicographic on (year, month, day). -/
def Date.lt (a b : Date) : Bool :=
  if a.year ≠ b.year then decide (a.year < b.year)
  else if a.month ≠ b.month then decide (a.month < b.month)
  else decide (a.day < b.day)

def isLeapYear (y : Nat) : Bool :=
  y % 4 == 0 && (y % 100 != 0 || y % 400 == 0)

def daysInMonth (y m : Nat) : Nat :=
  if m = 2 then (if isLeapYear y then 29 else 28)
  else if m = 4 ∨ m = 6 ∨ m = 9 ∨ m = 11 then 30
  else 31

/-! ### strptime model

`datetime.strptime` compiles the format into a regex (whitespace in the
format becomes `\s+`, each directive becomes an ordered alternation, all
matching is case-insensitive), matches it against the start of the string
with backtracking, and then raises `ValueError` unless the first successful
match consumed the entire string.  `Dir` is one compiled format element. -/
inductive Dir where
  | lit (c : Char)
  | ws
  | dY | dm | dd | dH | dI | dM | dp | dB | dA
deriving DecidableEq, Repr

/-- Compile a format string into directives (`%X` escapes, spaces to `ws`).
The script's formats never contain consecutive whitespace, so no run
merging is needed. -/
def fmtDirs : List Char → List Dir
  | [] => []
  | '%' :: c :: rest =>
    (match c with
     | 'Y' => Dir.dY
     | 'm' => Dir.dm
     | 'd' => Dir.dd
     | 'H' => Dir.dH
     | 'I' => Dir.dI
     | 'M' => Dir.dM
     | 'p' => Dir.dp
     | 'B' => Dir.dB
     | 'A' => Dir.dA
     | c2 => Dir.lit c2) :: fmtDirs rest
  | c :: rest => (if c = ' ' then Dir.ws else Dir.lit c) :: fmtDirs rest

def digitVal (c : Char) : Nat := c.toNat - '0'.toNat

/-- Python `\s` (the ASCII part; all inputs here are ASCII). -/
def isWsChar (c : Char) : Bool :=
  c == ' ' || c == '\t' || c == '\n' || c == '\r' || c == '\x0b' || c == '\x0c'

/-- Model of `%Y`: exactly four digits. -/
def candY : List Char → List (Nat × List Char)
  | a :: b :: c :: d :: rest =>
    if a.isDigit && b.isDigit && c.isDigit && d.isDigit then
      [(digitVal a * 1000 + digitVal b * 100 + digitVal c * 10 + digitVal d, rest)]
    else []
  | _ => []

/-- Model of `%m` / `%I`: regex `1[0-2]|0[1-9]|[1-9]`, alternatives in order. -/
def candTwelve (cs : List Char) : List (Nat × List Char) :=
  (match cs with
   | '1' :: b :: rest =>
     if b == '0' || b == '1' || b == '2' then [(10 + digitVal b, rest)] else []
   | _ => []) ++
  (match cs with
   | '0' :: b :: rest => if b.isDigit && b != '0' then [(digitVal b, rest)] else []
   | _ => []) ++
  (match cs with
   | b :: rest => if b.isDigit && b != '0' then [(digitVal b, rest)] else []
   | _ => [])

/-- Model of `%d`: regex `3[01]|[12]\d|0[1-9]|[1-9]`. -/
def candd (cs : List Char) : List (Nat × List Char) :=
  (match cs with
   | '3' :: b :: rest => if b == '0' || b == '1' then [(30 + digitVal b, rest)] else []
   | _ => []) ++
  (match cs with
   | a :: b :: rest =>
     if (a == '1' || a == '2') && b.isDigit then [(digitVal a * 10 + digitVal b, rest)] else []
   | _ => []) ++
  (match cs with
   | '0' :: b :: rest => if b.isDigit && b != '0' then [(digitVal b, rest)] else []
   | _ => []) ++
  (match cs with
   | b :: rest => if b.isDigit && b != '0' then [(digitVal b, rest)] else []
   | _ => [])

/-- Model of `%H`: regex `2[0-3]|[0-1]\d|\d`. -/
def candH (cs : List Char) : List (Nat × List Char) :=
  (match cs with
   | '2' :: b :: rest =>
     if b == '0' || b == '1' || b == '2' || b == '3' then [(20 + digitVal b, rest)] else []
   | _ => []) ++
  (match cs with
   | a :: b :: rest =>
     if (a == '0' || a == '1') && b.isDigit then [(digitVal a * 10 + digitVal b, rest)] else []
   | _ => []) ++
  (match cs with
   | b :: rest => if b.isDigit then [(digitVal b, rest)] else []
   | _ => [])

/-- Model of `%M`: regex `[0-5]\d|\d`. -/
def candM (cs : List Char) : List (Nat × List Char) :=
  (match cs with
   | a :: b :: rest =>
     if a.isDigit && digitVal a ≤ 5 && b.isDigit then [(digitVal a * 10 + digitVal b, rest)] else []
   | _ => []) ++
  (match cs with
   | b :: rest => if b.isDigit then [(digitVal b, rest)] else []
   | _ => [])

/-- Model of `%p`: `AM`/`PM`, case-insensitively; `true` means PM. -/
def candp (cs : List Char) : List (Bool × List Char) :=
  match cs with
  | a :: b :: rest =>
    (if a.toLower == 'a' && b.toLower == 'm' then [(false, rest)] else []) ++
    (if a.toLower == 'p' && b.toLower == 'm' then [(true, rest)] else [])
  | _ => []

/-- Case-insensitively consume `pat` from the front of `cs`. -/
def eatCI : List Char → List Char → Option (List Char)
  | [], cs => some cs
  | _ :: _, [] => none
  | p :: ps, c :: cs => if p.toLower == c.toLower then eatCI ps cs else none

def monthNames : List (String × Nat) :=
  [("January", 1), ("February", 2), ("March", 3), ("April", 4), ("May", 5), ("June", 6),
   ("July", 7), ("August", 8), ("September", 9), ("October", 10), ("November", 11),
   ("December", 12)]

/-- Model of `%B`: full month name, case-insensitive. -/
def candB (cs : List Char) : List (Nat × List Char) :=
  monthNames.foldr
    (fun p acc =>
      match eatCI p.1.toList cs with
      | some rest => (p.2, rest) :: acc
      | none => acc) []

def dayNames : List String :=
  ["Monday", "Tuesday", "Wednesday", "Thursday", "Friday", "Saturday", "Sunday"]

/-- Model of `%A`: full weekday name, case-insensitive (value is parsed but the
date constructed by `strptime` never checks it for consistency). -/
def candA (cs : List Char) : List (Nat × List Char) :=
  dayNames.foldr
    (fun n acc =>
      match eatCI n.toList cs with
      | some rest => (0, rest) :: acc
      | none => acc) []

/-- Model of `\s+`, greedy: consume k, k-1, ..., 1 whitespace characters. -/
def candWs (cs : List Char) : List (List Char) :=
  let k := (cs.takeWhile isWsChar).length
  (List.range k).map (fun j => cs.drop (k - j))

def candLit (c : Char) (cs : List Char) : List (List Char) :=
  match cs with
  | x :: rest => if x.toLower == c.toLower then [rest] else []
  | [] => []

/-- Fields collected by a match. -/
structure Parts where
  year : Option Nat
  month : Option Nat
  day : Option Nat
  hour : Option Nat
  minute : Option Nat
  ampm : Option Bool
deriving DecidableEq, Repr

def Parts.empty : Parts := ⟨none, none, none, none, none, none⟩

def dirStep (d : Dir) (p : Parts) (cs : List Char) : List (Parts × List Char) :=
  match d with
  | .lit c => (candLit c cs).map (fun r => (p, r))
  | .ws => (candWs cs).map (fun r => (p, r))
  | .dY => (candY cs).map (fun v => ({p with year := some v.1}, v.2))
  | .dm => (candTwelve cs).map (fun v => ({p with month := some v.1}, v.2))
  | .dd => (candd cs).map (fun v => ({p with day := some v.1}, v.2))
  | .dH => (candH cs).map (fun v => ({p with hour := some v.1}, v.2))
  | .dI => (candTwelve cs).map (fun v => ({p with hour := some v.1}, v.2))
  | .dM => (candM cs).map (fun v => ({p with minute := some v.1}, v.2))
  | .dp => (candp cs).map (fun v => ({p with ampm := some v.1}, v.2))
  | .dB => (candB cs).map (fun v => ({p with month := some v.1}, v.2))
  | .dA => (candA cs).map (fun v => (p, v.2))

def firstSome {α : Type} : List (Option α) → Option α
  | [] => none
  | some a :: _ => some a
  | none :: rest => firstSome rest

/-- First successful backtracking match of the directive sequence (the
regex engine's leftmost match under alternation priority). -/
def matchDirs : List Dir → Parts → List Char → Option (Parts × List Char)
  | [], p, cs => some (p, cs)
  | d :: ds, p, cs => firstSome ((dirStep d p cs).map (fun pc => matchDirs ds pc.1 pc.2))

/-- The whole-string requirement: `strptime` raises `ValueError` unless the
first match consumed every character ("unconverted data remains"). -/
def strptimeRun (fmt : String) (cs : List Char) : Option Parts :=
  match matchDirs (fmtDirs fmt.toList) Parts.empty cs with
  | some (p, []) => some p
  | _ => none

/-- Model of `datetime(...)` construction from matched fields: defaults 1900-01-01,
then calendar validation (`ValueError` when out of range). -/
def partsToDate (p : Parts) : Option Date :=
  let y := p.year.getD 1900
  let m := p.month.getD 1
  let d := p.day.getD 1
  if 1 ≤ y && y ≤ 9999 && 1 ≤ m && m ≤ 12 && 1 ≤ d && d ≤ daysInMonth y m then
    some ⟨y, m, d⟩
  else none

/-- Model of `datetime.strptime(v, fmt).date()`: `TypeError` on non-string input,
`ValueError` when the format does not match or the date is invalid. -/
def strptimeDate (v : PyVal) (fmt : String) : Except PyErr Date :=
  match v with
  | .str s =>
    match strptimeRun fmt s.toList with
    | some p =>
      match partsToDate p with
      | some d => .ok d
      | none => .error .valueError
    | none => .error .valueError
  | _ => .error .typeError

/-! ### parse_show_date -/

def isWordChar (c : Char) : Bool := c.isAlphanum || c == '_'

/-- An ordinal suffix (`st`/`nd`/`rd`/`th`) followed by a word boundary
sits at the front of `rest`. -/
def ordSuffix (rest : List Char) : Bool :=
  match rest with
  | a :: b :: rest2 =>
    ((a == 's' && b == 't') || (a == 'n' && b == 'd') ||
     (a == 'r' && b == 'd') || (a == 't' && b == 'h')) &&
    (match rest2 with | [] => true | x :: _ => !isWordChar x)
  | _ => false

/-- Model of `re.sub(r'(\d)(st|nd|rd|th)\b', r'\1', s)`: drop an ordinal suffix that
immediately follows a digit and is followed by a word boundary.  The fuel
argument (instantiated with the list length, enough since every step
consumes at least one character) keeps the recursion structural. -/
def ordSubF : Nat → List Char → List Char
  | 0, cs => cs
  | _ + 1, [] => []
  | fuel + 1, c :: rest =>
    if c.isDigit && ordSuffix rest then c :: ordSubF fuel (rest.drop 2)
    else c :: ordSubF fuel rest

def ordSub (cs : List Char) : List Char := ordSubF cs.length cs

/-- The `re.sub` call; non-string input raises `TypeError`. -/
def ordinalClean (v : PyVal) : Except PyErr String :=
  match v with
  | .str s => .ok ⟨ordSub s.toList⟩
  | _ => .error .typeError

def yearFormats : List String :=
  ["%Y-%m-%d %I:%M %p", "%Y-%m-%d %H:%M", "%Y-%m-%d", "%m/%d/%Y", "%B %d, %Y %I:%M %p"]

def timeFormats : List String := ["%I%p", "%I:%M%p"]

/-- The `for fmt in ...: try ... except ValueError: continue` loop:
only `ValueError` is swallowed, other exceptions propagate. -/
def tryFormats (v : PyVal) : List String → Except PyErr (Option Date)
  | [] => .ok none
  | f :: rest =>
    match strptimeDate v f with
    | .ok d => .ok (some d)
    | .error .valueError => tryFormats v rest
    | .error e => .error e

/-- The body of `parse_show_date` inside its outer `try`. -/
def parseShowDateBody (currentYear : Nat) (v : PyVal) : Except PyErr (Option Date) :=
  match tryFormats v yearFormats with
  | .error e => .error e
  | .ok (some d) => .ok (some d)
  | .ok none =>
    match ordinalClean v with
    | .error e => .error e
    | .ok dateClean =>
      tryFormats (.str (dateClean ++ " " ++ toString currentYear))
        (timeFormats.map (fun tf => "%A %B %d " ++ tf ++ " %Y"))

/-- Model of `parse_show_date`: the outer `except Exception: return None` turns any
escaped error into a `None` result, so the call itself never raises. -/
def parse_show_date (currentYear : Nat) (v : PyVal) : Except PyErr (Option Date) :=
  match parseShowDateBody currentYear v with
  | .ok r => .ok r
  | .error _ => .ok none

/-- The value a caller observes (the function never raises, see above). -/
def parseShowDateOpt (currentYear : Nat) (v : PyVal) : Option Date :=
  match parse_show_date currentYear v with
  | .ok r => r
  | .error _ => none

/-- Python `str.lower()` (ASCII; all relevant data is ASCII). -/
def pyLower (s : String) : String := ⟨s.data.map Char.toLower⟩

/-- Python `str.strip()`: drop whitespace from both ends. -/
def pyStrip (s : String) : String :=
  ⟨((s.data.dropWhile isWsChar).reverse.dropWhile isWsChar).reverse⟩

/-! ### Email validation (`is_valid_email`) -/

def localChar (c : Char) : Bool := c.isAlphanum || c == '_' || c == '.' || c == '+' || c == '-'

def domainChar (c : Char) : Bool := c.isAlphanum || c == '-'

def domainDotChar (c : Char) : Bool := c.isAlphanum || c == '-' || c == '.'

/-- Full match of `[a-zA-Z0-9_.+-]+@[a-zA-Z0-9-]+\.[a-zA-Z0-9-.]+`.
Since `@` is outside the local class and `.` outside the first domain
class, the regex decomposition at the first `@` and the first `.` after
it is forced, so no backtracking is needed. -/
def emailCore (cs : List Char) : Bool :=
  let l := cs.takeWhile (fun c => c != '@')
  match cs.dropWhile (fun c => c != '@') with
  | '@' :: rest =>
    let d1 := rest.takeWhile (fun c => c != '.')
    match rest.dropWhile (fun c => c != '.') with
    | '.' :: d2 =>
      !l.isEmpty && l.all localChar && !d1.isEmpty && d1.all domainChar &&
      !d2.isEmpty && d2.all domainDotChar
    | _ => false
  | _ => false

/-- Model of `re.match(r'^...$', email)`: the `$` anchor also matches just before a
single trailing newline. -/
def emailRegexMatch (s : String) : Bool :=
  emailCore s.data || (s.data.getLast? == some '\x0a' && emailCore s.data.dropLast)

/-- Model of `is_valid_email`: `None`/falsy and the sentinel strings (compared
case-insensitively via `.lower()`) are invalid, otherwise the regex decides. -/
def is_valid_email (email : Option String) : Bool :=
  match email with
  | none => false
  | some s =>
    if s == "" || pyLower s == "none" || pyLower s == "null" then false
    else emailRegexMatch s

/-! ### Venue group mapping and the batch uploader -/

def GROUPS : List (String × String) :=
  [("townhouse", "143572270449690387"),
   ("stowaway", "143572260771333843"),
   ("citizen", "143572251965392675"),
   ("church", "143572232163034114"),
   ("palace", "143571926962407099"),
   ("blind barber fulton market", "148048384759956607"),
   ("uncategorized", "143572290783675542")]

def groupsLookup (k : String) : Option String :=
  (GROUPS.find? (fun p => p.1 == k)).map Prod.snd

def uncategorizedId : String := "143572290783675542"

/-- Model of `(contact[0] or "uncategorized").lower()`. -/
def resolveVenue (v : Option String) : String :=
  pyLower
    (match v with
     | some s => if s == "" then "uncategorized" else s
     | none => "uncategorized")

/-- Model of `GROUPS.get(venue, GROUPS["uncategorized"])`. -/
def resolveGroupId (v : Option String) : String :=
  (groupsLookup (resolveVenue v)).getD uncategorizedId

/-- Model of `venue if venue in GROUPS else "uncategorized"`. -/
def resolveGroupName (v : Option String) : String :=
  if (groupsLookup (resolveVenue v)).isSome then resolveVenue v else "uncategorized"

/-- The warning at the top of the upload loop fires exactly when the
resolved group name is `"uncategorized"`. -/
def venueWarn (v : Option String) : Bool :=
  resolveGroupName v == "uncategorized"

/-- One member of a venue's contact-array list, restricted to the indices
the uploader reads: `contact[0]` (venue), `contact[2]` (email),
`contact[6]`/`contact[7]` (names), `contact[9]` (phone). -/
structure UploadItem where
  venue : Option String
  email : Option String
  firstName : String
  lastName : String
  phone : Option String
deriving DecidableEq, Repr

structure ReqBody where
  email : String
  name : String
  phone : Option String
  groups : List String
deriving DecidableEq, Repr

structure BatchReq where
  method : String
  path : String
  body : ReqBody
deriving DecidableEq, Repr

/-- Model of `phone and str(phone).strip() and str(phone).lower() not in ['none', 'null', '']`. -/
def phoneOk (phone : Option String) : Bool :=
  match phone with
  | none => false
  | some p =>
    !(p == "") && !(pyStrip p == "") &&
    !(pyLower p == "none" || pyLower p == "null" || pyLower p == "")

def mkReq (c : UploadItem) : BatchReq :=
  ⟨"POST", "/api/subscribers",
   ⟨c.email.getD "",
    pyStrip (c.firstName ++ " " ++ c.lastName),
    (if phoneOk c.phone then some (pyStrip (c.phone.getD "")) else none),
    [resolveGroupId c.venue]⟩⟩

/-- The flattened `requests_list`: iterate the grouped input in order and
keep one request per item that passes the defensive email re-validation.
`processed_emails` is appended in lockstep at the same program point, so it
is recovered below as the projection of this list. -/
def requestsList (input : List (String × List UploadItem)) : List BatchReq :=
  input.foldl
    (fun acc grp =>
      grp.2.foldl
        (fun acc2 c => if is_valid_email c.email then acc2 ++ [mkReq c] else acc2) acc)
    []

def processedEmails (input : List (String × List UploadItem)) : List String :=
  (requestsList input).map (fun r => r.body.email)

/-- Outcome of one batch POST: an HTTP-200 response carrying one result
code per submitted item (`res.get('code')`), a non-200 HTTP response, or a
transport exception during the call. -/
inductive BatchOutcome where
  | ok (codes : Nat → Option Nat)
  | httpError
  | exn

/-- The value `batch_add_contacts_to_mailerlite` returns: the early
`return []` (an empty list, not a tuple) or the final 3-tuple. -/
inductive BatchResult where
  | emptyList
  | triple (successful : List String) (failed : List String)
      (byGroup : List (String × List String))
deriving DecidableEq, Repr

/-- Model of `next((k for k, v in GROUPS.items() if v == group_id), "unknown")`. -/
def reverseGroupName (gid : String) : String :=
  ((GROUPS.find? (fun p => p.2 == gid)).map Prod.fst).getD "unknown"

/-- Append to `successful_by_group[name]` with dict insertion-order
semantics. -/
def groupAppend (g : List (String × List String)) (name email : String) :
    List (String × List String) :=
  match g with
  | [] => [(name, [email])]
  | (n, l) :: rest =>
    if n == name then (n, l ++ [email]) :: rest else (n, l) :: groupAppend rest name email

/-- Per-item handling of an HTTP-200 batch response: item `k` succeeded
iff its code is 200 or 201 (the request at absolute index `k` is the chunk
element itself, since chunking preserves positions). -/
def runOk (codes : Nat → Option Nat) :
    List BatchReq → Nat → List String → List String → List (String × List String) →
    List String × List String × List (String × List String)
  | [], _, succ, fail, grp => (succ, fail, grp)
  | r :: rest, k, succ, fail, grp =>
    if codes k == some 200 || codes k == some 201 then
      runOk codes rest (k + 1) (succ ++ [r.body.email]) fail
        (groupAppend grp (reverseGroupName (r.body.groups.headD "")) r.body.email)
    else
      runOk codes rest (k + 1) succ (fail ++ [r.body.email]) grp

/-- The `for i in range(0, len(requests_list), 50)` loop.  On a non-200
response or an exception every email of the batch slice is marked failed. -/
def processBatches (outs : Nat → BatchOutcome) :
    List BatchReq → Nat → List String → List String → List (String × List String) →
    List String × List String × List (String × List String)
  | [], _, succ, fail, grp => (succ, fail, grp)
  | r :: rest, i, succ, fail, grp =>
    match outs i with
    | .ok codes =>
      let t := runOk codes (r :: rest.take 49) i succ fail grp
      processBatches outs (rest.drop 49) (i + 50) t.1 t.2.1 t.2.2
    | _ =>
      processBatches outs (rest.drop 49) (i + 50) succ
        (fail ++ (r :: rest.take 49).map (fun r2 => r2.body.email)) grp
termination_by rem => rem.length
decreasing_by all_goals simp [List.length_drop]; omega

def batch_add_contacts_to_mailerlite (input : List (String × List UploadItem))
    (outs : Nat → BatchOutcome) : BatchResult :=
  let reqs := requestsList input
  if reqs.isEmpty then .emptyList
  else
    let t := processBatches outs reqs 0 [] [] []
    .triple t.1 t.2.1 t.2.2

def successfulOf : BatchResult → List String
  | .emptyList => []
  | .triple s _ _ => s

def failedOf : BatchResult → List String
  | .emptyList => []
  | .triple _ f _ => f

/-! ### Mongo documents, the eligibility query and `get_contacts_to_process` -/

/-- The `email` field of a document: absent, BSON null, or a string. -/
inductive EmailField where
  | missing
  | nullV
  | str (s : String)
deriving DecidableEq, Repr

/-- A contact document, restricted to the fields the script reads or
writes.  `id` stands for the Mongo `_id` and distinguishes documents that
agree on every other field.  Timestamps are abstracted as naturals. -/
structure Contact where
  id : Nat
  email : EmailField
  show_date : Option PyVal
  venue : Option String
  added_to_mailerlite : Option Bool
  collection_source : Option String
  mailerlite_added_date : Option Nat
  updated_at : Option Nat
  failed_at : Option Nat
  failure_reason : Option String
deriving DecidableEq, Repr

/-- Model of `contact.get('email')`: `None` for an absent or null field. -/
def pyGetEmail (c : Contact) : Option String :=
  match c.email with
  | .str s => some s
  | _ => none

/-- The `added_to_mailerlite` half of the query:
`{"$or": [{...: False}, {...: {"$exists": False}}]}`. -/
def addedQueryOk (c : Contact) : Bool :=
  c.added_to_mailerlite == some false || c.added_to_mailerlite == none

/-- The `email` half of the query:
`{"$exists": True, "$ne": "", "$nin": [None, "none", "null"]}`.
Mongo string comparison here is exact (case-sensitive). -/
def emailQueryOk (c : Contact) : Bool :=
  match c.email with
  | .str s => !(s == "") && !(s == "none") && !(s == "null")
  | _ => false

def queryOk (c : Contact) : Bool := addedQueryOk c && emailQueryOk c

/-- Model of `contact.get('show_date', '')`. -/
def getShowDate (c : Contact) : PyVal := c.show_date.getD (.str "")

/-- Model of `contact['_collection_source'] = collection_name`. -/
def tagContact (c : Contact) (name : String) : Contact :=
  {c with collection_source := some name}

/-- Model of `if limit and len(all_valid_contacts) >= limit` — note that a limit of
`0` is falsy in Python and therefore imposes no cap. -/
def limitReached (limit : Option Nat) (n : Nat) : Bool :=
  match limit with
  | none => false
  | some l => !(l == 0) && decide (l ≤ n)

/-- The inner `for contact in contacts` loop of one collection: keep a
candidate iff its date parses and is strictly before today, stopping once
the limit is reached. -/
def collectEligible (limit : Option Nat) (today : Date) (name : String) :
    List Contact → List Contact → List Contact
  | [], acc => acc
  | c :: rest, acc =>
    if limitReached limit acc.length then acc
    else
      match parseShowDateOpt today.year (getShowDate c) with
      | some d =>
        if Date.lt d today then collectEligible limit today name rest (acc ++ [tagContact c name])
        else collectEligible limit today name rest acc
      | none => collectEligible limit today name rest acc

/-- The outer `for collection_name in MONGO_COLLECTIONS` loop;
`collection.find(query)` returns the documents passing the query in
collection order. -/
def getContactsGo (limit : Option Nat) (today : Date) :
    List (String × List Contact) → List Contact → List Contact
  | [], acc => acc
  | (name, docs) :: rest, acc =>
    if limitReached limit acc.length then acc
    else getContactsGo limit today rest (collectEligible limit today name (docs.filter queryOk) acc)

/-- Embedding of `get_contacts_to_process`, with the configured collections and their
contents passed explicitly and the clock fixed at `today`. -/
def get_contacts_to_process (limit : Option Nat) (colls : List (String × List Contact))
    (today : Date) : List Contact :=
  getContactsGo limit today colls []

/-! ### Reconciliation: `mark_contacts_as_processed` and `handle_failed_contacts` -/

/-- The datastore: collection name to document list (in natural order). -/
def DB : Type := String → List Contact

def dbUpdate (db : DB) (name : String) (f : List Contact → List Contact) : DB :=
  fun s => if s = name then f (db s) else db s

/-- Python-dict assignment on an association list: replace in place if the
key is present, append otherwise. -/
def assocSet {α β : Type} [DecidableEq α] : List (α × β) → α → β → List (α × β)
  | [], k, v => [(k, v)]
  | (k0, v0) :: rest, k, v =>
    if k0 = k then (k0, v) :: rest else (k0, v0) :: assocSet rest k v

/-- Model of `email_to_collection`: for each processed contact whose email is in the
success list, map the email to its `_collection_source` (later contacts
overwrite earlier ones). -/
def buildSuccessMap (processed : List Contact) (successful : List String) :
    List (String × Option String) :=
  processed.foldl
    (fun m c =>
      match pyGetEmail c with
      | some e => if e ∈ successful then assocSet m e c.collection_source else m
      | none => m)
    []

/-- Model of `update_many({"email": {"$in": emails}}, ...)` matches a document iff
its email field is one of the listed strings. -/
def emailIn (d : Contact) (emails : List String) : Bool :=
  match d.email with
  | .str s => s ∈ emails
  | _ => false

def markDoc (now : Nat) (d : Contact) : Contact :=
  {d with added_to_mailerlite := some true,
          mailerlite_added_date := some now,
          updated_at := some now}

def mark_contacts_as_processed (collections : List String) (successful : List String)
    (processed : List Contact) (now : Nat) (db : DB) : DB :=
  if successful.isEmpty then db
  else
    let m := buildSuccessMap processed successful
    collections.foldl
      (fun db2 name =>
        let emailsHere := (m.filter (fun p => p.2 == some name)).map Prod.fst
        if emailsHere.isEmpty then db2
        else dbUpdate db2 name
          (fun docs => docs.map (fun d => if emailIn d emailsHere then markDoc now d else d)))
      db

/-- Model of `email_to_contact`: failed emails (which may include a Python `None`
coming from `invalid_emails`) to the last processed contact bearing them. -/
def buildFailedMap (processed : List Contact) (failedL : List (Option String)) :
    List (Option String × Contact) :=
  processed.foldl
    (fun m c => if pyGetEmail c ∈ failedL then assocSet m (pyGetEmail c) c else m)
    []

def augmentFailed (c : Contact) (now : Nat) : Contact :=
  {c with failed_at := some now, failure_reason := some "mailerlite_import_failed"}

/-- Model of `delete_one({"email": k})`: a string key matches exactly that string
value; a `None` key matches a null or missing email field. -/
def emailFilterMatch (d : Contact) (k : Option String) : Bool :=
  match k, d.email with
  | some s, .str t => s == t
  | none, .nullV => true
  | none, .missing => true
  | _, _ => false

/-- One iteration of the `for email, contact in email_to_contact.items()`
loop.  `insF`/`delF` tell whether the insert (resp. delete) raises for the
given email key; a raise is caught by the per-item handler, and an insert
failure skips the delete entirely. -/
def handleStep (now : Nat) (insF delF : Option String → Bool) (db : DB)
    (p : Option String × Contact) : DB :=
  match p.2.collection_source with
  | none => db
  | some src =>
    if src = "" then db
    else if insF p.1 then db
    else
      let db1 := dbUpdate db "failed" (fun docs => docs ++ [augmentFailed p.2 now])
      if delF p.1 then db1
      else dbUpdate db1 src (fun docs => docs.eraseP (fun d => emailFilterMatch d p.1))

def handle_failed_contacts (failedL : List (Option String)) (processed : List Contact)
    (now : Nat) (insF delF : Option String → Bool) (db : DB) : DB :=
  if failedL.isEmpty then db
  else (buildFailedMap processed failedL).foldl (handleStep now insF delF) db

/-! ### Derived notions used in the statements below -/

/-- The documents of a collection that `{"email": k}` matches. -/
def matchingDocs (l : List Contact) (k : Option String) : List Contact :=
  l.filter (fun d => emailFilterMatch d k)

/-- Lookup in an association list built with `assocSet`. -/
def entryLookup {α β : Type} [DecidableEq α] (m : List (α × β)) (k : α) : Option β :=
  (m.find? (fun p => decide (p.1 = k))).map Prod.snd

/-- The contact `email_to_contact` ends up holding for a failed email key:
the last processed contact in input order whose `.get('email')` equals it. -/
def lastFailedContact (processed : List Contact) (failedL : List (Option String))
    (k : Option String) : Option Contact :=
  if k ∈ failedL then (processed.filter (fun c => pyGetEmail c == k)).getLast? else none

/-- A document whose email corresponds to no entry of the success or
failure sets (the frame of the reconciliation writers). -/
def untouchedEmail (successful : List String) (failedL : List (Option String))
    (d : Contact) : Bool :=
  !(decide (pyGetEmail d ∈ successful.map some) || decide (pyGetEmail d ∈ failedL))

def dbEmpty : DB := fun _ => []

/-- Little-endian-free decimal digit list of a natural number (used to
characterise `Nat.repr` on four-digit years). -/
def decDigits (n : Nat) : List Char :=
  if n < 10 then [Nat.digitChar n]
  else decDigits (n / 10) ++ [Nat.digitChar (n % 10)]
termination_by n
decreasing_by exact Nat.div_lt_self (by omega) (by omega)

/-! ### Concrete documents for the counterexamples and witnesses -/

def baseContact : Contact :=
  ⟨0, .missing, none, none, none, none, none, none, none, none⟩

/-- A record whose email is the string `"None"` (capital N) and whose show
date lies in the past. -/
def contactCapNone : Contact :=
  {baseContact with id := 1, email := .str "None", show_date := some (.str "01/15/2023")}

/-- A processed contact for the frame counterexample. -/
def contactFrameA : Contact :=
  {baseContact with id := 1, email := .str "x@y.com", show_date := some (.str "01/15/2023"),
                    collection_source := some "c"}

/-- A second document in the same collection that merely shares the email
with `contactFrameA` and is not among the processed contacts. -/
def contactFrameB : Contact :=
  {baseContact with id := 2, email := .str "x@y.com"}

def dbFrame : DB := fun s => if s = "c" then [contactFrameA, contactFrameB] else []

/-- Two processed contacts sharing one failed email in one collection. -/
def contactDupA : Contact :=
  {baseContact with id := 1, email := .str "x@y.com", collection_source := some "c"}

def contactDupB : Contact :=
  {baseContact with id := 2, email := .str "x@y.com", collection_source := some "c"}

def dbDup : DB := fun s => if s = "c" then [contactDupA, contactDupB] else []

/-- An eligible, valid contact used in witnesses. -/
def contactGood : Contact :=
  {baseContact with id := 3, email := .str "a@b.com", show_date := some (.str "01/15/2023")}

/-! ## Theorems -/

/-- C5: claimed that `batch_add_contacts_to_mailerlite` returns a
(successful, failed, by-group) triple for every input.  The code instead
executes `return []` when the flattened request list is empty, e.g. for a
grouped input with a venue and no items; the docstring ("Returns tuple")
and the 3-way unpacking in `main` both expect the triple. -/
theorem c5_empty_input_returns_list :
    batch_add_contacts_to_mailerlite [("townhouse", [])] (fun _ => BatchOutcome.httpError) =
      BatchResult.emptyList := rfl

/-- C9: `parse_show_date` is total — it always returns (`Except.ok`) a
date or `None` and never propagates an error, and any error escaping the
format attempts (such as the `TypeError` raised on non-string input) is
converted into a `None` result by the catch-all handler. -/
theorem c9_parse_show_date_total :
    (∀ y v, ∃ r : Option Date, parse_show_date y v = Except.ok r) ∧
    (∀ y v e, parseShowDateBody y v = Except.error e → parse_show_date y v = Except.ok none) := by
  constructor
  · intro y v
    unfold parse_show_date
    cases parseShowDateBody y v with
    | ok r => exact ⟨r, rfl⟩
    | error e => exact ⟨none, rfl⟩
  · intro y v e h
    unfold parse_show_date
    rw [h]

/-- Witness for C9 at a non-string input: the body genuinely raises
`TypeError` there and the function returns `ok none`. -/
theorem c9_parse_show_date_total_witness :
    parseShowDateBody 2025 (PyVal.int 5) = Except.error PyErr.typeError ∧
    parse_show_date 2025 (PyVal.int 5) = Except.ok none :=
  ⟨rfl, c9_parse_show_date_total.2 2025 (PyVal.int 5) PyErr.typeError rfl⟩

/-- C4 counterexample: `"June 3, 2024"` does NOT parse to 2024-06-03 — the
only month-name format in the list, `"%B %d, %Y %I:%M %p"`, requires a
time component, so the string falls through every attempt and the result
is `None`. -/
theorem c4_counterexample :
    parseShowDateOpt 2025 (.str "June 3, 2024") = none := by decide

/-- C7 counterexample: a record whose email is the string `"None"`
(capital N) passes the Mongo query — `$nin` comparison is case-sensitive —
so with a past show date it is returned by `get_contacts_to_process`,
while the claim says it must be excluded from the candidate set. -/
theorem c7_counterexample :
    get_contacts_to_process none [("c", [contactCapNone])] ⟨2023, 6, 1⟩ =
      [tagContact contactCapNone "c"] := rfl

/-- C6 counterexample: `mark_contacts_as_processed` updates by email
filter (`update_many {"email": {"$in": ...}}`), so `contactFrameB` — a
record that is not among the processed contacts and merely shares the
email of the successful contact — also gets `added_to_mailerlite` set. -/
theorem c6_counterexample :
    (mark_contacts_as_processed ["c"] ["x@y.com"] [contactFrameA] 7 dbFrame) "c" =
      [markDoc 7 contactFrameA, markDoc 7 contactFrameB] ∧
    markDoc 7 contactFrameB ≠ contactFrameB := by
  exact ⟨rfl, by decide⟩

/-- C10 counterexample: with two processed contacts sharing one failed
email in one collection, the dictionary keeps only the last (`contactDupB`,
which is quarantined), but `delete_one({"email": ...})` then removes the
FIRST matching document — `contactDupA`, one of the "other contacts
sharing that email" which the claim says are never deleted. -/
theorem c10_counterexample :
    (handle_failed_contacts [some "x@y.com"] [contactDupA, contactDupB] 5
        (fun _ => false) (fun _ => false) dbDup) "c" = [contactDupB] ∧
    (handle_failed_contacts [some "x@y.com"] [contactDupA, contactDupB] 5
        (fun _ => false) (fun _ => false) dbDup) "failed" = [augmentFailed contactDupB 5] := by
  exact ⟨rfl, rfl⟩

/-- Counting lemma for one HTTP-200 batch: every chunk element's email is
appended to exactly one of the success/failure accumulators. -/
theorem runOk_count (codes : Nat → Option Nat) (e : String) :
    ∀ (chunk : List BatchReq) (k : Nat) (succ fail : List String)
      (grp : List (String × List String)),
      (runOk codes chunk k succ fail grp).1.count e +
        (runOk codes chunk k succ fail grp).2.1.count e =
        succ.count e + fail.count e + (chunk.map (fun r => r.body.email)).count e := by
  intro chunk
  induction chunk with
  | nil => intro k succ fail grp; simp [runOk]
  | cons r rest ih =>
    intro k succ fail grp
    by_cases h : (codes k == some 200 || codes k == some 201) = true
    · simp only [runOk, h, if_true]
      rw [ih]
      simp [List.count_append, List.count_cons]
      omega
    · simp only [runOk, h, if_false, Bool.false_eq_true]
      rw [ih]
      simp [List.count_append, List.count_cons]
      omega

/-- Counting lemma for the whole batch loop. -/
theorem processBatches_count (outs : Nat → BatchOutcome) (e : String) :
    ∀ (n : Nat) (rem : List BatchReq), rem.length ≤ n →
      ∀ (i : Nat) (succ fail : List String) (grp : List (String × List String)),
      (processBatches outs rem i succ fail grp).1.count e +
        (processBatches outs rem i succ fail grp).2.1.count e =
        succ.count e + fail.count e + (rem.map (fun r => r.body.email)).count e := by
  intro n
  induction n with
  | zero =>
    intro rem hlen i succ fail grp
    have : rem = [] := List.eq_nil_of_length_eq_zero (Nat.le_zero.mp hlen)
    subst this
    simp [processBatches]
  | succ n ih =>
    intro rem hlen i succ fail grp
    match rem with
    | [] => simp [processBatches]
    | r :: rest =>
      have hsplit : (r :: rest).map (fun r2 => r2.body.email) =
          ((r :: rest.take 49).map (fun r2 => r2.body.email)) ++
          ((rest.drop 49).map (fun r2 => r2.body.email)) := by
        rw [← List.map_append]
        simp [List.take_append_drop]
      have hcnt : ((r :: rest.take 49).map (fun r2 => r2.body.email)).count e +
          ((rest.drop 49).map (fun r2 => r2.body.email)).count e =
          ((r :: rest).map (fun r2 => r2.body.email)).count e := by
        rw [hsplit, List.count_append]
      have hlen2 : (rest.drop 49).length ≤ n := by
        simp only [List.length_drop]
        simp only [List.length_cons] at hlen
        omega
      cases houts : outs i with
      | ok codes =>
        simp only [processBatches, houts]
        rw [ih _ hlen2, runOk_count]
        omega
      | httpError =>
        simp only [processBatches, houts]
        rw [ih _ hlen2, List.count_append]
        omega
      | exn =>
        simp only [processBatches, houts]
        rw [ih _ hlen2, List.count_append]
        omega

/-- C1: for every grouped input and every combination of per-batch
outcomes, each email occurrence placed in the flattened request list ends
up in exactly one of `successful` / `failed`: the two result lists
together contain each request email exactly as many times as it occurs in
the request list — never both, never neither. -/
theorem c1_upload_partition (input : List (String × List UploadItem))
    (outs : Nat → BatchOutcome) (e : String) :
    (successfulOf (batch_add_contacts_to_mailerlite input outs)).count e +
      (failedOf (batch_add_contacts_to_mailerlite input outs)).count e =
      (processedEmails input).count e := by
  unfold batch_add_contacts_to_mailerlite processedEmails
  by_cases h : (requestsList input).isEmpty
  · have : requestsList input = [] := List.isEmpty_iff.mp h
    simp [h, this, successfulOf, failedOf]
  · simp only [h, if_false, Bool.false_eq_true, successfulOf, failedOf]
    have h2 := processBatches_count outs e (requestsList input).length _ (Nat.le_refl _) 0 [] [] []
    simpa using h2

/-- A document matches the delete filter for at most one key: a match
forces the key to be the document's own `.get('email')` value. -/
theorem emailFilterMatch_eq_key (d : Contact) (k : Option String)
    (h : emailFilterMatch d k = true) : pyGetEmail d = k := by
  cases k with
  | none =>
    cases he : d.email <;> simp [emailFilterMatch, he, pyGetEmail] at h ⊢
  | some s =>
    cases he : d.email <;> simp [emailFilterMatch, he, pyGetEmail] at h ⊢
    exact h.symm

/-- An element not satisfying the predicate survives `eraseP`. -/
theorem mem_eraseP_of_not (p : Contact → Bool) :
    ∀ (l : List Contact) (d : Contact), d ∈ l → p d = false → d ∈ l.eraseP p := by
  intro l
  induction l with
  | nil => intro d h; cases h
  | cons h t ih =>
    intro d hd hp
    rw [List.eraseP_cons]
    cases hph : p h with
    | true =>
      simp only [hph, cond_true]
      rcases List.mem_cons.mp hd with rfl | hmem
      · rw [hp] at hph; cases hph
      · exact hmem
    | false =>
      simp only [hph, cond_false]
      rcases List.mem_cons.mp hd with rfl | hmem
      · exact List.mem_cons_self _ _
      · exact List.mem_cons_of_mem _ (ih d hmem hp)

/-- One loop iteration of `handle_failed_contacts` never removes a
document matching a key whose insert fails. -/
theorem handleStep_mem (now : Nat) (insF delF : Option String → Bool)
    (key : Option String) (hins : insF key = true)
    (p : Option String × Contact) (db : DB) (s : String) (d : Contact)
    (hmatch : emailFilterMatch d key = true) (hd : d ∈ db s) :
    d ∈ handleStep now insF delF db p s := by
  unfold handleStep
  cases hsrc : p.2.collection_source with
  | none => exact hd
  | some src =>
    by_cases hempty : src = ""
    · simp [hempty, hd]
    · simp only [hempty, if_false]
      by_cases hkey : insF p.1 = true
      · simp [hkey, hd]
      · simp only [hkey, if_false, Bool.false_eq_true]
        have hne : p.1 ≠ key := fun h => hkey (h ▸ hins)
        have hstep1 : d ∈ dbUpdate db "failed" (fun docs => docs ++ [augmentFailed p.2 now]) s := by
          unfold dbUpdate
          by_cases hs : s = "failed"
          · simp [hs]; left; exact hs ▸ hd
          · simp [hs, hd]
        by_cases hdel : delF p.1 = true
        · simp [hdel, hstep1]
        · simp only [hdel, if_false, Bool.false_eq_true]
          unfold dbUpdate
          by_cases hs : s = src
          · simp only [hs, if_pos rfl]
            apply mem_eraseP_of_not _ _ _ (hs ▸ hstep1)
            cases hm : emailFilterMatch d p.1
            · rfl
            · exact absurd (((emailFilterMatch_eq_key d p.1 hm).symm.trans
                (emailFilterMatch_eq_key d key hmatch))) hne
          · simp only [if_neg hs]
            unfold dbUpdate at hstep1
            exact hstep1

/-- C2: if the quarantine insert raises for a failed email, the delete is
not executed for that email, so every source document carrying that email
(in particular the failed contact's original record) stays present in its
collection. -/
theorem c2_insert_failure_keeps_source (failedL : List (Option String))
    (processed : List Contact) (now : Nat) (insF delF : Option String → Bool)
    (db : DB) (key : Option String) (s : String) (d : Contact)
    (hins : insF key = true) (hmatch : emailFilterMatch d key = true)
    (hd : d ∈ db s) :
    d ∈ (handle_failed_contacts failedL processed now insF delF db) s := by
  unfold handle_failed_contacts
  by_cases h : failedL.isEmpty
  · simp [h, hd]
  · simp only [h, if_false, Bool.false_eq_true]
    generalize buildFailedMap processed failedL = l
    induction l generalizing db with
    | nil => exact hd
    | cons p rest ih =>
      exact ih _ (handleStep_mem now insF delF key hins p db s d hmatch hd)

/-- Witness for C2: with an always-failing insert, the source document is
still in its collection after the run. -/
theorem c2_insert_failure_keeps_source_witness :
    (fun _ : Option String => true) (some "x@y.com") = true ∧
    emailFilterMatch contactDupA (some "x@y.com") = true ∧
    contactDupA ∈ dbDup "c" ∧
    contactDupA ∈ (handle_failed_contacts [some "x@y.com"] [contactDupA, contactDupB] 5
        (fun _ => true) (fun _ => false) dbDup) "c" :=
  ⟨rfl, by decide, by decide,
    c2_insert_failure_keeps_source [some "x@y.com"] [contactDupA, contactDupB] 5
      (fun _ => true) (fun _ => false) dbDup (some "x@y.com") "c" contactDupA
      rfl (by decide) (by decide)⟩

/-- Tagging with the collection source changes no field the query or the
date filter reads. -/
theorem queryOk_tag (c : Contact) (n : String) : queryOk (tagContact c n) = queryOk c := rfl

theorem getShowDate_tag (c : Contact) (n : String) :
    getShowDate (tagContact c n) = getShowDate c := rfl

/-- Soundness of the inner per-collection loop: everything it adds passed
the strict past-date check. -/
theorem collectEligible_sound (limit : Option Nat) (today : Date) (name : String) :
    ∀ (ms acc : List Contact) (c' : Contact),
      c' ∈ collectEligible limit today name ms acc →
      c' ∈ acc ∨ ∃ c ∈ ms,
        (∃ d, parseShowDateOpt today.year (getShowDate c) = some d ∧ Date.lt d today = true) ∧
        c' = tagContact c name := by
  intro ms
  induction ms with
  | nil => intro acc c' h; exact Or.inl h
  | cons c rest ih =>
    intro acc c' h
    rw [collectEligible] at h
    by_cases hlim : limitReached limit acc.length = true
    · rw [if_pos hlim] at h; exact Or.inl h
    · rw [if_neg hlim] at h
      cases hp : parseShowDateOpt today.year (getShowDate c) with
      | none =>
        rw [hp] at h
        dsimp only at h
        rcases ih _ _ h with hacc | ⟨c2, hc2, hrest⟩
        · exact Or.inl hacc
        · exact Or.inr ⟨c2, List.mem_cons_of_mem _ hc2, hrest⟩
      | some d =>
        rw [hp] at h
        dsimp only at h
        by_cases hlt : Date.lt d today = true
        · rw [if_pos hlt] at h
          rcases ih _ _ h with hacc | ⟨c2, hc2, hrest⟩
          · rcases List.mem_append.mp hacc with ha | hb
            · exact Or.inl ha
            · rcases List.mem_singleton.mp hb with rfl
              exact Or.inr ⟨c, List.mem_cons_self _ _, ⟨d, hp, hlt⟩, rfl⟩
          · exact Or.inr ⟨c2, List.mem_cons_of_mem _ hc2, hrest⟩
        · rw [if_neg hlt] at h
          rcases ih _ _ h with hacc | ⟨c2, hc2, hrest⟩
          · exact Or.inl hacc
          · exact Or.inr ⟨c2, List.mem_cons_of_mem _ hc2, hrest⟩

/-- Soundness of `get_contacts_to_process` (any limit): every returned
record passes the query and carries a parsed date strictly before today. -/
theorem get_contacts_sound (limit : Option Nat) (colls : List (String × List Contact))
    (today : Date) (c' : Contact) (h : c' ∈ get_contacts_to_process limit colls today) :
    queryOk c' = true ∧
    ∃ d, parseShowDateOpt today.year (getShowDate c') = some d ∧ Date.lt d today = true := by
  unfold get_contacts_to_process at h
  have main : ∀ (l : List (String × List Contact)) (acc : List Contact),
      c' ∈ getContactsGo limit today l acc →
      c' ∈ acc ∨ (queryOk c' = true ∧
        ∃ d, parseShowDateOpt today.year (getShowDate c') = some d ∧ Date.lt d today = true) := by
    intro l
    induction l with
    | nil => intro acc h2; exact Or.inl h2
    | cons nd rest ih =>
      intro acc h2
      rw [getContactsGo] at h2
      by_cases hlim : limitReached limit acc.length = true
      · rw [if_pos hlim] at h2; exact Or.inl h2
      · rw [if_neg hlim] at h2
        rcases ih _ h2 with hacc | hgood
        · rcases collectEligible_sound limit today nd.1 _ _ _ hacc with ha | ⟨c, hc, hdate, rfl⟩
          · exact Or.inl ha
          · refine Or.inr ⟨?_, ?_⟩
            · rw [queryOk_tag]
              exact (List.mem_filter.mp hc).2
            · rw [getShowDate_tag]
              exact hdate
        · exact Or.inr hgood
  rcases main colls [] h with h2 | h2
  · cases h2
  · exact h2

/-- With no limit, accumulated results are never dropped. -/
theorem collectEligible_mono (today : Date) (name : String) :
    ∀ (ms acc : List Contact) (x : Contact),
      x ∈ acc → x ∈ collectEligible none today name ms acc := by
  intro ms
  induction ms with
  | nil => intro acc x hx; exact hx
  | cons c rest ih =>
    intro acc x hx
    rw [collectEligible]
    simp only [limitReached, Bool.false_eq_true, if_false]
    cases hp : parseShowDateOpt today.year (getShowDate c) with
    | none => exact ih _ _ hx
    | some d =>
      dsimp only
      by_cases hlt : Date.lt d today = true
      · rw [if_pos hlt]
        exact ih _ _ (List.mem_append_left _ hx)
      · rw [if_neg hlt]
        exact ih _ _ hx

/-- Completeness of the inner loop with no limit. -/
theorem collectEligible_complete (today : Date) (name : String) :
    ∀ (ms acc : List Contact) (c : Contact), c ∈ ms →
      (∃ d, parseShowDateOpt today.year (getShowDate c) = some d ∧ Date.lt d today = true) →
      tagContact c name ∈ collectEligible none today name ms acc := by
  intro ms
  induction ms with
  | nil => intro acc c hc; cases hc
  | cons c0 rest ih =>
    intro acc c hc hdate
    rw [collectEligible]
    simp only [limitReached, Bool.false_eq_true, if_false]
    rcases List.mem_cons.mp hc with rfl | hmem
    · rcases hdate with ⟨d, hp, hlt⟩
      rw [hp]
      dsimp only
      rw [if_pos hlt]
      exact collectEligible_mono today name rest _ _
        (List.mem_append_right _ (List.mem_singleton.mpr rfl))
    · cases hp : parseShowDateOpt today.year (getShowDate c0) with
      | none => exact ih _ _ hmem hdate
      | some d =>
        dsimp only
        by_cases hlt : Date.lt d today = true
        · rw [if_pos hlt]; exact ih _ _ hmem hdate
        · rw [if_neg hlt]; exact ih _ _ hmem hdate

theorem getContactsGo_mono (today : Date) :
    ∀ (l : List (String × List Contact)) (acc : List Contact) (x : Contact),
      x ∈ acc → x ∈ getContactsGo none today l acc := by
  intro l
  induction l with
  | nil => intro acc x hx; exact hx
  | cons nd rest ih =>
    intro acc x hx
    rw [getContactsGo]
    simp only [limitReached, Bool.false_eq_true, if_false]
    exact ih _ _ (collectEligible_mono today nd.1 _ _ _ hx)

/-- Completeness of `get_contacts_to_process` with no limit. -/
theorem get_contacts_complete (colls : List (String × List Contact)) (today : Date)
    (name : String) (docs : List Contact) (c : Contact)
    (hin : (name, docs) ∈ colls) (hc : c ∈ docs) (hq : queryOk c = true)
    (hdate : ∃ d, parseShowDateOpt today.year (getShowDate c) = some d ∧
        Date.lt d today = true) :
    tagContact c name ∈ get_contacts_to_process none colls today := by
  unfold get_contacts_to_process
  have main : ∀ (l : List (String × List Contact)) (acc : List Contact),
      (name, docs) ∈ l → tagContact c name ∈ getContactsGo none today l acc := by
    intro l
    induction l with
    | nil => intro acc h; cases h
    | cons nd rest ih =>
      intro acc h
      rw [getContactsGo]
      simp only [limitReached, Bool.false_eq_true, if_false]
      rcases List.mem_cons.mp h with heq | hmem
      · rw [← heq]
        apply getContactsGo_mono
        exact collectEligible_complete today name _ _ c
          (List.mem_filter.mpr ⟨hc, hq⟩) hdate
      · exact ih _ hmem
  exact main colls [] hin

/-- C3: a queried candidate is included in the (uncapped) result exactly
when its show-date string parses to a date strictly earlier than today;
same-day, later, and unparseable dates are excluded. -/
theorem c3_strict_past_filter (colls : List (String × List Contact)) (today : Date)
    (name : String) (docs : List Contact) (c : Contact)
    (hin : (name, docs) ∈ colls) (hc : c ∈ docs) (hq : queryOk c = true) :
    tagContact c name ∈ get_contacts_to_process none colls today ↔
      ∃ d, parseShowDateOpt today.year (getShowDate c) = some d ∧
        Date.lt d today = true := by
  constructor
  · intro h
    have h2 := (get_contacts_sound none colls today _ h).2
    rw [getShowDate_tag] at h2
    exact h2
  · intro hdate
    exact get_contacts_complete colls today name docs c hin hc hq hdate

/-- Witness for C3 at a concrete past-dated contact. -/
theorem c3_strict_past_filter_witness :
    ("c", [contactGood]) ∈ [("c", [contactGood])] ∧
    contactGood ∈ [contactGood] ∧
    queryOk contactGood = true ∧
    (tagContact contactGood "c" ∈
        get_contacts_to_process none [("c", [contactGood])] ⟨2023, 6, 1⟩ ↔
      ∃ d, parseShowDateOpt (2023 : Nat) (getShowDate contactGood) = some d ∧
        Date.lt d ⟨2023, 6, 1⟩ = true) :=
  ⟨List.mem_singleton.mpr rfl, List.mem_singleton.mpr rfl, by decide,
    c3_strict_past_filter [("c", [contactGood])] ⟨2023, 6, 1⟩ "c" [contactGood] contactGood
      (List.mem_singleton.mpr rfl) (List.mem_singleton.mpr rfl) (by decide)⟩

/-- Characterisation of the email half of the query: it keeps exactly the
string-valued emails different from the three exact sentinels. -/
theorem emailQueryOk_iff (c : Contact) :
    emailQueryOk c = true ↔
      ∃ s, c.email = EmailField.str s ∧ s ≠ "" ∧ s ≠ "none" ∧ s ≠ "null" := by
  cases he : c.email with
  | missing => simp [emailQueryOk, he]
  | nullV => simp [emailQueryOk, he]
  | str s =>
    simp only [emailQueryOk, he, Bool.and_eq_true, Bool.not_eq_true', beq_eq_false_iff_ne,
      EmailField.str.injEq, ne_eq]
    constructor
    · rintro ⟨⟨h1, h2⟩, h3⟩
      exact ⟨s, rfl, h1, h2, h3⟩
    · rintro ⟨s2, rfl, h1, h2, h3⟩
      exact ⟨⟨h1, h2⟩, h3⟩

/-- C7 (amended): the eligibility query excludes exactly records whose
email field is absent, null, or equal — case-sensitively — to one of
`""`, `"none"`, `"null"`; any other string-valued email (e.g. `"None"`)
passes the query, and such records are selected whenever the rest of the
query and the date filter allow it. -/
theorem c7_amended :
    (∀ limit colls today c', c' ∈ get_contacts_to_process limit colls today →
        ∃ s, c'.email = EmailField.str s ∧ s ≠ "" ∧ s ≠ "none" ∧ s ≠ "null") ∧
    (∀ colls today name docs c, (name, docs) ∈ colls → c ∈ docs →
        addedQueryOk c = true →
        (∃ s, c.email = EmailField.str s ∧ s ≠ "" ∧ s ≠ "none" ∧ s ≠ "null") →
        (∃ d, parseShowDateOpt today.year (getShowDate c) = some d ∧
          Date.lt d today = true) →
        tagContact c name ∈ get_contacts_to_process none colls today) := by
  constructor
  · intro limit colls today c' h
    have hq := (get_contacts_sound limit colls today c' h).1
    unfold queryOk at hq
    exact (emailQueryOk_iff c').mp (Bool.and_elim_right hq)
  · intro colls today name docs c hin hc hadd hemail hdate
    apply get_contacts_complete colls today name docs c hin hc
    · unfold queryOk
      rw [Bool.and_eq_true, hadd]
      exact ⟨rfl, (emailQueryOk_iff c).mpr hemail⟩
    · exact hdate

/-- Witness for C7 (amended) at a concrete valid contact. -/
theorem c7_amended_witness :
    ("c", [contactGood]) ∈ [("c", [contactGood])] ∧
    contactGood ∈ [contactGood] ∧
    addedQueryOk contactGood = true ∧
    (∃ s, contactGood.email = EmailField.str s ∧ s ≠ "" ∧ s ≠ "none" ∧ s ≠ "null") ∧
    (∃ d, parseShowDateOpt ((⟨2023, 6, 1⟩ : Date)).year (getShowDate contactGood) = some d ∧
      Date.lt d ⟨2023, 6, 1⟩ = true) ∧
    tagContact contactGood "c" ∈
      get_contacts_to_process none [("c", [contactGood])] ⟨2023, 6, 1⟩ :=
  ⟨List.mem_singleton.mpr rfl, List.mem_singleton.mpr rfl, by decide,
   ⟨"a@b.com", by decide, by decide, by decide, by decide⟩,
   ⟨⟨2023, 1, 15⟩, by decide, by decide⟩,
   c7_amended.2 [("c", [contactGood])] ⟨2023, 6, 1⟩ "c" [contactGood] contactGood
     (List.mem_singleton.mpr rfl) (List.mem_singleton.mpr rfl) (by decide)
     ⟨"a@b.com", by decide, by decide, by decide, by decide⟩
     ⟨⟨2023, 1, 15⟩, by decide, by decide⟩⟩

/-- Everything in the flattened request list comes from `mkReq`. -/
theorem requestsList_shape (input : List (String × List UploadItem)) (r : BatchReq)
    (h : r ∈ requestsList input) : ∃ c, r = mkReq c := by
  have inner : ∀ (l : List UploadItem) (acc : List BatchReq) (r2 : BatchReq),
      r2 ∈ l.foldl (fun acc2 c => if is_valid_email c.email then acc2 ++ [mkReq c] else acc2) acc →
      r2 ∈ acc ∨ ∃ c, r2 = mkReq c := by
    intro l
    induction l with
    | nil => intro acc r2 h2; exact Or.inl h2
    | cons c rest ih =>
      intro acc r2 h2
      rw [List.foldl_cons] at h2
      by_cases hv : is_valid_email c.email = true
      · rw [if_pos hv] at h2
        rcases ih _ _ h2 with hacc | hr
        · rcases List.mem_append.mp hacc with ha | hb
          · exact Or.inl ha
          · exact Or.inr ⟨c, List.mem_singleton.mp hb⟩
        · exact Or.inr hr
      · rw [if_neg hv] at h2
        exact ih _ _ h2
  have outer : ∀ (l : List (String × List UploadItem)) (acc : List BatchReq) (r2 : BatchReq),
      r2 ∈ l.foldl
        (fun acc grp => grp.2.foldl
          (fun acc2 c => if is_valid_email c.email then acc2 ++ [mkReq c] else acc2) acc) acc →
      r2 ∈ acc ∨ ∃ c, r2 = mkReq c := by
    intro l
    induction l with
    | nil => intro acc r2 h2; exact Or.inl h2
    | cons grp rest ih =>
      intro acc r2 h2
      rw [List.foldl_cons] at h2
      rcases ih _ _ h2 with hacc | hr
      · exact inner _ _ _ hacc
      · exact Or.inr hr
  rcases outer input [] r h with h2 | h2
  · cases h2
  · exact h2

/-- C8: venue resolution is case-insensitive (`"Townhouse"` and
`"townhouse"` give the same group identifier), total (every resolution
yields one of the configured identifiers, and every built request carries
exactly one group — its item's resolved identifier), and an unmatched
venue string falls back to the `"uncategorized"` identifier and triggers
the warning. -/
theorem c8_venue_resolution :
    resolveGroupId (some "Townhouse") = resolveGroupId (some "townhouse") ∧
    (∀ v, resolveGroupId v ∈ GROUPS.map Prod.snd) ∧
    (∀ input r, r ∈ requestsList input →
        ∃ c : UploadItem, r.body.groups = [resolveGroupId c.venue]) ∧
    (∀ s, (∀ k ∈ GROUPS.map Prod.fst, pyLower s ≠ pyLower k) →
      resolveGroupId (some s) = uncategorizedId ∧ venueWarn (some s) = true) := by
  refine ⟨by decide, ?_, ?_, ?_⟩
  · intro v
    unfold resolveGroupId
    cases hlk : groupsLookup (resolveVenue v) with
    | none => simp only [Option.getD_none]; decide
    | some g =>
      simp only [Option.getD_some]
      unfold groupsLookup at hlk
      rcases Option.map_eq_some'.mp hlk with ⟨p, hfind, hsnd⟩
      exact hsnd ▸ List.mem_map_of_mem Prod.snd (List.mem_of_find?_eq_some hfind)
  · intro input r h
    rcases requestsList_shape input r h with ⟨c, rfl⟩
    exact ⟨c, rfl⟩
  · intro s hyp
    have hkeys : ∀ k ∈ GROUPS.map Prod.fst, pyLower k = k := by decide
    by_cases hs : s = ""
    · subst hs
      exact ⟨by decide, by decide⟩
    · have hvenue : resolveVenue (some s) = pyLower s := by
        unfold resolveVenue
        dsimp only
        rw [if_neg (fun h => hs (beq_iff_eq.mp h))]
      have hnone : groupsLookup (pyLower s) = none := by
        unfold groupsLookup
        have : GROUPS.find? (fun p => p.1 == pyLower s) = none := by
          rw [List.find?_eq_none]
          intro p hp hbeq
          have h1 : p.1 = pyLower s := beq_iff_eq.mp hbeq
          have h2 := hyp p.1 (List.mem_map_of_mem Prod.fst hp)
          rw [hkeys p.1 (List.mem_map_of_mem Prod.fst hp)] at h2
          exact h2 h1.symm
        rw [this]
        rfl
      constructor
      · unfold resolveGroupId
        rw [hvenue, hnone]
        rfl
      · unfold venueWarn resolveGroupName
        rw [hvenue, hnone]
        rfl

/-- Witness for C8 at a venue string matching no configured key. -/
theorem c8_venue_resolution_witness :
    (∀ k ∈ GROUPS.map Prod.fst, pyLower "Comedy Cellar" ≠ pyLower k) ∧
    resolveGroupId (some "Comedy Cellar") = uncategorizedId ∧
    venueWarn (some "Comedy Cellar") = true :=
  ⟨by decide, (c8_venue_resolution.2.2.2 "Comedy Cellar" (by decide)).1,
   (c8_venue_resolution.2.2.2 "Comedy Cellar" (by decide)).2⟩

/-- Marking and quarantine augmentation do not change the email field. -/
theorem untouched_markDoc (succ : List String) (fl : List (Option String)) (n : Nat)
    (d : Contact) : untouchedEmail succ fl (markDoc n d) = untouchedEmail succ fl d := rfl

theorem untouched_augment (succ : List String) (fl : List (Option String)) (n : Nat)
    (d : Contact) : untouchedEmail succ fl (augmentFailed d n) = untouchedEmail succ fl d := rfl

theorem untouched_false_of_mem_succ (succ : List String) (fl : List (Option String))
    (d : Contact) (t : String) (ht : d.email = EmailField.str t) (hmem : t ∈ succ) :
    untouchedEmail succ fl d = false := by
  simp only [untouchedEmail, Bool.not_eq_false', Bool.or_eq_true, decide_eq_true_eq]
  left
  have hpy : pyGetEmail d = some t := by simp [pyGetEmail, ht]
  rw [hpy]
  exact List.mem_map_of_mem some hmem

theorem untouched_false_of_mem_failed (succ : List String) (fl : List (Option String))
    (d : Contact) (hmem : pyGetEmail d ∈ fl) : untouchedEmail succ fl d = false := by
  simp only [untouchedEmail, Bool.not_eq_false', Bool.or_eq_true, decide_eq_true_eq]
  exact Or.inr hmem

/-- Membership in `assocSet`: an old entry or the assigned pair. -/
theorem assocSet_mem {α β : Type} [DecidableEq α] :
    ∀ (m : List (α × β)) (k : α) (v : β) (p : α × β),
      p ∈ assocSet m k v → p ∈ m ∨ (p.1 = k ∧ p.2 = v) := by
  intro m k v
  induction m with
  | nil =>
    intro p hp
    rw [assocSet] at hp
    rcases List.mem_singleton.mp hp with rfl
    exact Or.inr ⟨rfl, rfl⟩
  | cons q rest ih =>
    obtain ⟨k0, v0⟩ := q
    intro p hp
    rw [assocSet] at hp
    by_cases hk : k0 = k
    · rw [if_pos hk] at hp
      rcases List.mem_cons.mp hp with rfl | hmem
      · exact Or.inr ⟨hk, rfl⟩
      · exact Or.inl (List.mem_cons_of_mem _ hmem)
    · rw [if_neg hk] at hp
      rcases List.mem_cons.mp hp with rfl | hmem
      · exact Or.inl (List.mem_cons_self _ _)
      · rcases ih p hmem with h1 | h2
        · exact Or.inl (List.mem_cons_of_mem _ h1)
        · exact Or.inr h2

/-- Every key of `email_to_collection` is a successful email. -/
theorem buildSuccessMap_keys (processed : List Contact) (successful : List String) :
    ∀ p ∈ buildSuccessMap processed successful, p.1 ∈ successful := by
  unfold buildSuccessMap
  suffices aux : ∀ (l : List Contact) (m : List (String × Option String)),
      (∀ p ∈ m, p.1 ∈ successful) →
      ∀ p ∈ l.foldl
        (fun m c =>
          match pyGetEmail c with
          | some e => if e ∈ successful then assocSet m e c.collection_source else m
          | none => m) m, p.1 ∈ successful by
    exact fun p hp => aux processed [] (fun q hq => absurd hq (List.not_mem_nil q)) p hp
  intro l
  induction l with
  | nil => exact fun m hm p hp => hm p hp
  | cons c rest ih =>
    intro m hm p hp
    rw [List.foldl_cons] at hp
    refine ih _ ?_ p hp
    intro q hq
    cases he : pyGetEmail c with
    | none =>
      rw [he] at hq
      exact hm q hq
    | some e =>
      rw [he] at hq
      dsimp only at hq
      by_cases hmem : e ∈ successful
      · rw [if_pos hmem] at hq
        rcases assocSet_mem m _ _ q hq with h1 | ⟨h2, _⟩
        · exact hm q h1
        · exact h2 ▸ hmem
      · rw [if_neg hmem] at hq
        exact hm q hq

/-- Entries of `email_to_contact` are keyed by their contact's email,
bear a failed email, and come from the processed list. -/
theorem buildFailedMap_inv (processed : List Contact) (failedL : List (Option String)) :
    ∀ p ∈ buildFailedMap processed failedL,
      p.1 = pyGetEmail p.2 ∧ p.1 ∈ failedL ∧ p.2 ∈ processed := by
  unfold buildFailedMap
  suffices aux : ∀ (l : List Contact) (m : List (Option String × Contact)),
      (∀ p ∈ m, p.1 = pyGetEmail p.2 ∧ p.1 ∈ failedL ∧ p.2 ∈ processed) →
      (∀ c ∈ l, c ∈ processed) →
      ∀ p ∈ l.foldl
        (fun m c => if pyGetEmail c ∈ failedL then assocSet m (pyGetEmail c) c else m) m,
        p.1 = pyGetEmail p.2 ∧ p.1 ∈ failedL ∧ p.2 ∈ processed by
    exact fun p hp =>
      aux processed [] (fun q hq => absurd hq (List.not_mem_nil q)) (fun c hc => hc) p hp
  intro l
  induction l with
  | nil => exact fun m hm _ p hp => hm p hp
  | cons c rest ih =>
    intro m hm hsub p hp
    rw [List.foldl_cons] at hp
    refine ih _ ?_ (fun c2 hc2 => hsub c2 (List.mem_cons_of_mem _ hc2)) p hp
    intro q hq
    by_cases hmem : pyGetEmail c ∈ failedL
    · rw [if_pos hmem] at hq
      rcases assocSet_mem m _ _ q hq with h1 | ⟨h2a, h2b⟩
      · exact hm q h1
      · refine ⟨?_, h2a ▸ hmem, h2b ▸ hsub c (List.mem_cons_self _ _)⟩
        rw [h2a, h2b]
    · rw [if_neg hmem] at hq
      exact hm q hq

/-- Mapping a function that fixes the filtered elements and preserves the
predicate leaves the filtered sublist unchanged. -/
theorem filter_map_eq (P : Contact → Bool) (f : Contact → Contact) :
    ∀ l : List Contact, (∀ d, P d = true → f d = d) → (∀ d, P (f d) = P d) →
      (l.map f).filter P = l.filter P := by
  intro l hid hpres
  induction l with
  | nil => rfl
  | cons d rest ih =>
    simp only [List.map_cons, List.filter_cons, hpres d]
    cases hp : P d with
    | true => simp only [if_true]; rw [hid d hp, ih]
    | false => simpa using ih
  
theorem filter_append_single (P : Contact → Bool) (l : List Contact) (x : Contact)
    (hx : P x = false) : (l ++ [x]).filter P = l.filter P := by
  rw [List.filter_append]
  simp [List.filter_cons, hx]

theorem filter_eraseP (P q : Contact → Bool) :
    ∀ l : List Contact, (∀ d, q d = true → P d = false) → (l.eraseP q).filter P = l.filter P := by
  intro l h
  induction l with
  | nil => rfl
  | cons d rest ih =>
    rw [List.eraseP_cons]
    cases hq : q d with
    | true =>
      simp only [cond_true]
      rw [List.filter_cons]
      simp [h d hq]
    | false =>
      simp only [cond_false]
      rw [List.filter_cons, List.filter_cons]
      cases hp : P d <;> simp [hp, ih]

/-- Frame lemma: `mark_contacts_as_processed` leaves the non-successful-email sublist
of every collection unchanged. -/
theorem mark_filter_frame (failedL : List (Option String)) (collections : List String)
    (successful : List String) (processed : List Contact) (now : Nat) (db : DB) (s : String) :
    ((mark_contacts_as_processed collections successful processed now db) s).filter
        (untouchedEmail successful failedL) =
      (db s).filter (untouchedEmail successful failedL) := by
  unfold mark_contacts_as_processed
  by_cases hempty : successful.isEmpty
  · rw [if_pos hempty]
  · rw [if_neg hempty]
    dsimp only
    have hkeys := buildSuccessMap_keys processed successful
    generalize buildSuccessMap processed successful = m at hkeys ⊢
    have hstep : ∀ (db2 : DB) (name : String),
        ((if ((m.filter (fun p => p.2 == some name)).map Prod.fst).isEmpty then db2
          else dbUpdate db2 name
            (fun docs => docs.map
              (fun d =>
                if emailIn d ((m.filter (fun p => p.2 == some name)).map Prod.fst) then
                  markDoc now d
                else d))) s).filter (untouchedEmail successful failedL) =
          (db2 s).filter (untouchedEmail successful failedL) := by
      intro db2 name
      by_cases he : ((m.filter (fun p => p.2 == some name)).map Prod.fst).isEmpty
      · rw [if_pos he]
      · rw [if_neg he]
        unfold dbUpdate
        by_cases hs : s = name
        · rw [if_pos hs]
          apply filter_map_eq
          · intro d hP
            have hnotin : emailIn d ((m.filter (fun p => p.2 == some name)).map Prod.fst) = false := by
              cases hin : emailIn d ((m.filter (fun p => p.2 == some name)).map Prod.fst) with
              | false => rfl
              | true =>
                exfalso
                unfold emailIn at hin
                cases hemail : d.email with
                | str t =>
                  rw [hemail] at hin
                  simp only [decide_eq_true_eq] at hin
                  rcases List.mem_map.mp hin with ⟨p, hpmem, hfst⟩
                  have hsucc := hkeys p (List.mem_of_mem_filter hpmem)
                  rw [hfst] at hsucc
                  rw [untouched_false_of_mem_succ successful failedL d t hemail hsucc] at hP
                  cases hP
                | missing => rw [hemail] at hin; cases hin
                | nullV => rw [hemail] at hin; cases hin
            rw [hnotin]
            simp
          · intro d
            by_cases hin : emailIn d ((m.filter (fun p => p.2 == some name)).map Prod.fst) = true
            · rw [if_pos hin, untouched_markDoc]
            · rw [if_neg hin]
        · rw [if_neg hs]
    induction collections generalizing db with
    | nil => rfl
    | cons name rest ih =>
      rw [List.foldl_cons]
      rw [ih]
      exact hstep db name

/-- Frame lemma: `handle_failed_contacts` leaves the non-failed-email sublist of every
collection unchanged (the quarantine only gains failed-email copies, the
deletes only remove failed-email documents). -/
theorem handle_filter_frame (successful : List String) (failedL : List (Option String))
    (processed : List Contact) (now : Nat) (insF delF : Option String → Bool)
    (db : DB) (s : String) :
    ((handle_failed_contacts failedL processed now insF delF db) s).filter
        (untouchedEmail successful failedL) =
      (db s).filter (untouchedEmail successful failedL) := by
  unfold handle_failed_contacts
  by_cases hfe : failedL.isEmpty
  · rw [if_pos hfe]
  · rw [if_neg hfe]
    have hinv := buildFailedMap_inv processed failedL
    generalize buildFailedMap processed failedL = l at hinv ⊢
    revert hinv
    induction l generalizing db with
    | nil => intro _; rfl
    | cons p rest ih =>
      intro hinv
      rw [List.foldl_cons]
      rw [ih (handleStep now insF delF db p) (fun q hq => hinv q (List.mem_cons_of_mem _ hq))]
      obtain ⟨hkey, hfail, _⟩ := hinv p (List.mem_cons_self _ _)
      unfold handleStep
      cases hsrc : p.2.collection_source with
      | none => rfl
      | some src =>
        dsimp only
        by_cases hse : src = ""
        · rw [if_pos hse]
        · rw [if_neg hse]
          by_cases hins : insF p.1 = true
          · rw [if_pos hins]
          · rw [if_neg hins]
            have haug : untouchedEmail successful failedL (augmentFailed p.2 now) = false := by
              rw [untouched_augment]
              exact untouched_false_of_mem_failed successful failedL p.2 (hkey ▸ hfail)
            have hdb1 : ∀ t, ((dbUpdate db "failed"
                (fun docs => docs ++ [augmentFailed p.2 now])) t).filter
                  (untouchedEmail successful failedL) =
                (db t).filter (untouchedEmail successful failedL) := by
              intro t
              unfold dbUpdate
              by_cases ht : t = "failed"
              · rw [if_pos ht]
                exact filter_append_single _ _ _ haug
              · rw [if_neg ht]
            by_cases hdel : delF p.1 = true
            · rw [if_pos hdel]
              exact hdb1 s
            · rw [if_neg hdel]
              unfold dbUpdate
              by_cases hs2 : s = src
              · rw [if_pos hs2]
                rw [filter_eraseP]
                · exact hdb1 s
                · intro d hq
                  exact untouched_false_of_mem_failed successful failedL d
                    ((emailFilterMatch_eq_key d p.1 hq) ▸ hfail)
              · rw [if_neg hs2]
                exact hdb1 s

/-- C6 (amended): a datastore record whose email corresponds to no entry
of the successful or failed sets is left completely untouched by the two
reconciliation writers — correspondence being by email value, so only
records carrying a successful or failed email can be modified or removed. -/
theorem c6_amended (collections : List String) (successful : List String)
    (processed : List Contact) (now : Nat) (failedL : List (Option String))
    (processed2 : List Contact) (now2 : Nat) (insF delF : Option String → Bool)
    (db : DB) (s : String) :
    ((handle_failed_contacts failedL processed2 now2 insF delF
        (mark_contacts_as_processed collections successful processed now db)) s).filter
      (untouchedEmail successful failedL) =
    ((db s)).filter (untouchedEmail successful failedL) := by
  rw [handle_filter_frame, mark_filter_frame]

/-- A document always matches the filter built from its own email key. -/
theorem emailFilterMatch_self (d : Contact) : emailFilterMatch d (pyGetEmail d) = true := by
  cases h : d.email <;> simp [emailFilterMatch, pyGetEmail, h]

theorem filter_append_single_true (P : Contact → Bool) (l : List Contact) (x : Contact)
    (hx : P x = true) : (l ++ [x]).filter P = l.filter P ++ [x] := by
  rw [List.filter_append]
  simp [List.filter_cons, hx]

/-- Erasing the first match removes exactly the head of the matching
sublist. -/
theorem filter_eraseP_self (P : Contact → Bool) :
    ∀ l : List Contact, (l.eraseP P).filter P = (l.filter P).drop 1 := by
  intro l
  induction l with
  | nil => rfl
  | cons d rest ih =>
    rw [List.eraseP_cons]
    cases hp : P d with
    | true =>
      simp only [cond_true, List.filter_cons, hp, if_true]
      simp
    | false =>
      simp only [cond_false, List.filter_cons, hp]
      simpa using ih

theorem assocSet_keys_mem {α β : Type} [DecidableEq α] :
    ∀ (m : List (α × β)) (k : α) (v : β) (x : α),
      x ∈ (assocSet m k v).map Prod.fst → x ∈ m.map Prod.fst ∨ x = k := by
  intro m k v x hx
  rcases List.mem_map.mp hx with ⟨p, hp, rfl⟩
  rcases assocSet_mem m k v p hp with h1 | ⟨h2, _⟩
  · exact Or.inl (List.mem_map_of_mem Prod.fst h1)
  · exact Or.inr h2

theorem assocSet_keys_nodup {α β : Type} [DecidableEq α] :
    ∀ (m : List (α × β)) (k : α) (v : β),
      (m.map Prod.fst).Nodup → ((assocSet m k v).map Prod.fst).Nodup := by
  intro m k v
  induction m with
  | nil => intro _; simp [assocSet]
  | cons q rest ih =>
    obtain ⟨k0, v0⟩ := q
    intro hnd
    rw [assocSet]
    by_cases hk : k0 = k
    · rw [if_pos hk]
      simpa using hnd
    · rw [if_neg hk]
      rw [List.map_cons, List.nodup_cons] at hnd ⊢
      obtain ⟨hk0, hrest⟩ := hnd
      refine ⟨?_, ih hrest⟩
      intro hmem
      rcases assocSet_keys_mem rest k v k0 hmem with h1 | h2
      · exact hk0 h1
      · exact hk h2

/-- The keys of `email_to_contact` are distinct (it is a dict). -/
theorem buildFailedMap_keys_nodup (processed : List Contact)
    (failedL : List (Option String)) :
    ((buildFailedMap processed failedL).map Prod.fst).Nodup := by
  unfold buildFailedMap
  suffices aux : ∀ (l : List Contact) (m : List (Option String × Contact)),
      (m.map Prod.fst).Nodup →
      ((l.foldl
        (fun m c => if pyGetEmail c ∈ failedL then assocSet m (pyGetEmail c) c else m)
        m).map Prod.fst).Nodup by
    exact aux processed [] (by simp)
  intro l
  induction l with
  | nil => exact fun m hm => hm
  | cons c rest ih =>
    intro m hm
    rw [List.foldl_cons]
    refine ih _ ?_
    by_cases hmem : pyGetEmail c ∈ failedL
    · rw [if_pos hmem]
      exact assocSet_keys_nodup m _ _ hm
    · rw [if_neg hmem]
      exact hm

theorem entryLookup_eq_none_of_not_mem {α β : Type} [DecidableEq α]
    (m : List (α × β)) (k : α) (h : k ∉ m.map Prod.fst) : entryLookup m k = none := by
  unfold entryLookup
  rw [List.find?_eq_none.mpr]
  · rfl
  · intro p hp hbeq
    exact h (of_decide_eq_true hbeq ▸ List.mem_map_of_mem Prod.fst hp)

theorem entryLookup_cons {α β : Type} [DecidableEq α] (p : α × β) (rest : List (α × β))
    (k : α) : entryLookup (p :: rest) k = if p.1 = k then some p.2 else entryLookup rest k := by
  unfold entryLookup
  rw [List.find?_cons]
  by_cases h : p.1 = k
  · simp [h]
  · rw [if_neg h, decide_eq_false h]

theorem assocSet_lookup {α β : Type} [DecidableEq α] :
    ∀ (m : List (α × β)) (k k2 : α) (v : β),
      entryLookup (assocSet m k v) k2 = if k2 = k then some v else entryLookup m k2 := by
  intro m k k2 v
  induction m with
  | nil =>
    rw [assocSet, entryLookup_cons]
    by_cases h : k2 = k
    · rw [if_pos h, if_pos h.symm]
    · rw [if_neg h, if_neg (fun h2 => h h2.symm)]
  | cons q rest ih =>
    obtain ⟨k0, v0⟩ := q
    rw [assocSet]
    by_cases hk : k0 = k
    · rw [if_pos hk, entryLookup_cons, entryLookup_cons]
      by_cases h2 : k0 = k2
      · rw [if_pos h2, if_pos (h2 ▸ hk ▸ rfl : k2 = k)]
      · rw [if_neg h2]
        by_cases h3 : k2 = k
        · exact absurd (h3 ▸ hk : k0 = k2) h2
        · rw [if_neg h3, if_neg h2]
    · rw [if_neg hk, entryLookup_cons, entryLookup_cons, ih]
      by_cases h2 : k0 = k2
      · have h3 : ¬k2 = k := fun h => hk (h2.trans h)
        rw [if_pos h2, if_neg h3, if_pos h2]
      · rw [if_neg h2, if_neg h2]

/-- The dict value for a key is the last processed contact bearing it. -/
theorem buildFailedMap_lookup (processed : List Contact) (failedL : List (Option String))
    (k : Option String) :
    entryLookup (buildFailedMap processed failedL) k = lastFailedContact processed failedL k := by
  have haux : ∀ (l : List Contact) (m : List (Option String × Contact)),
      entryLookup
        (l.foldl (fun m c => if pyGetEmail c ∈ failedL then assocSet m (pyGetEmail c) c else m) m)
        k =
      match (l.filter (fun c => pyGetEmail c == k && decide (pyGetEmail c ∈ failedL))).getLast? with
      | some c => some c
      | none => entryLookup m k := by
    intro l
    induction l with
    | nil => intro m; rfl
    | cons c rest ih =>
      intro m
      rw [List.foldl_cons, List.filter_cons, ih]
      by_cases hpred : (pyGetEmail c == k && decide (pyGetEmail c ∈ failedL)) = true
      · have hpred2 := hpred
        simp only [Bool.and_eq_true] at hpred2
        obtain ⟨hck, hcf⟩ := hpred2
        have hck2 : pyGetEmail c = k := beq_iff_eq.mp hck
        have hcf2 : pyGetEmail c ∈ failedL := of_decide_eq_true hcf
        rw [hpred, if_pos rfl]
        cases hsh : (rest.filter
            (fun c => pyGetEmail c == k && decide (pyGetEmail c ∈ failedL))) with
        | nil =>
          simp only [List.getLast?_nil, List.getLast?_singleton]
          rw [if_pos hcf2, assocSet_lookup]
          rw [if_pos hck2.symm]
        | cons x xs =>
          rw [List.getLast?_cons_cons]
          cases h2 : (x :: xs).getLast? with
          | some c2 => rfl
          | none => exact absurd (List.getLast?_eq_none_iff.mp h2) (List.cons_ne_nil x xs)
      · rw [Bool.not_eq_true] at hpred
        rw [hpred]
        simp only [Bool.false_eq_true, if_false]
        cases hrest : (rest.filter
            (fun c => pyGetEmail c == k && decide (pyGetEmail c ∈ failedL))).getLast? with
        | none =>
          dsimp only
          by_cases hmem : pyGetEmail c ∈ failedL
          · rw [if_pos hmem, assocSet_lookup]
            have hckb : (pyGetEmail c == k) = false := by
              cases hb : (pyGetEmail c == k) with
              | false => rfl
              | true =>
                rw [hb, decide_eq_true hmem] at hpred
                simp at hpred
            rw [if_neg (Ne.symm (ne_of_beq_false hckb))]
          · rw [if_neg hmem]
        | some c2 => rfl
  rw [buildFailedMap, haux]
  have hfeq : processed.filter (fun c => pyGetEmail c == k && decide (pyGetEmail c ∈ failedL)) =
      (if k ∈ failedL then processed.filter (fun c => pyGetEmail c == k) else []) := by
    by_cases hk : k ∈ failedL
    · rw [if_pos hk]
      apply List.filter_congr
      intro c _
      cases hck : (pyGetEmail c == k) with
      | true =>
        have : pyGetEmail c ∈ failedL := (beq_iff_eq.mp hck) ▸ hk
        simp [this]
      | false => simp
    · rw [if_neg hk]
      rw [List.filter_eq_nil_iff]
      intro c _ hpred
      simp only [Bool.and_eq_true] at hpred
      obtain ⟨hck, hcf⟩ := hpred
      exact hk ((beq_iff_eq.mp hck) ▸ of_decide_eq_true hcf)
  rw [hfeq]
  unfold lastFailedContact
  by_cases hk : k ∈ failedL
  · rw [if_pos hk, if_pos hk]
    cases (processed.filter (fun c => pyGetEmail c == k)).getLast? <;> rfl
  · rw [if_neg hk, if_neg hk]
    rfl

/-- A loop iteration for a different email key never changes the set of
documents matching `k`, in any collection. -/
theorem handleStep_profile_other (now : Nat) (insF delF : Option String → Bool)
    (db : DB) (p : Option String × Contact) (k : Option String) (s : String)
    (hkey : p.1 = pyGetEmail p.2) (hne : p.1 ≠ k) :
    matchingDocs ((handleStep now insF delF db p) s) k = matchingDocs (db s) k := by
  unfold handleStep
  cases hsrc : p.2.collection_source with
  | none => rfl
  | some src =>
    dsimp only
    by_cases hse : src = ""
    · rw [if_pos hse]
    · rw [if_neg hse]
      by_cases hins : insF p.1 = true
      · rw [if_pos hins]
      · rw [if_neg hins]
        have haug : emailFilterMatch (augmentFailed p.2 now) k = false := by
          cases hm : emailFilterMatch (augmentFailed p.2 now) k with
          | false => rfl
          | true =>
            have := emailFilterMatch_eq_key _ _ hm
            exact absurd (hkey.trans this) hne
        have hdb1 : ∀ t, matchingDocs ((dbUpdate db "failed"
            (fun docs => docs ++ [augmentFailed p.2 now])) t) k = matchingDocs (db t) k := by
          intro t
          unfold dbUpdate
          by_cases ht : t = "failed"
          · rw [if_pos ht]
            exact filter_append_single _ _ _ haug
          · rw [if_neg ht]
        by_cases hdel : delF p.1 = true
        · rw [if_pos hdel]
          exact hdb1 s
        · rw [if_neg hdel]
          unfold dbUpdate
          by_cases hs2 : s = src
          · rw [if_pos hs2]
            unfold matchingDocs
            dsimp only
            rw [filter_eraseP]
            · exact hdb1 s
            · intro d hq
              cases hm : emailFilterMatch d k with
              | false => rfl
              | true =>
                have h1 := emailFilterMatch_eq_key d _ hq
                have h2 := emailFilterMatch_eq_key d _ hm
                exact absurd (h1 ▸ h2 : p.1 = k) hne
          · rw [if_neg hs2]
            exact hdb1 s

/-- Folding entries none of which bear key `k` preserves the `k`-profile. -/
theorem fold_profile_nokey (now : Nat) (insF delF : Option String → Bool) (k : Option String) :
    ∀ (l : List (Option String × Contact)) (db : DB),
      (∀ p ∈ l, p.1 = pyGetEmail p.2) → (∀ p ∈ l, p.1 ≠ k) →
      ∀ s, matchingDocs ((l.foldl (handleStep now insF delF) db) s) k =
        matchingDocs (db s) k := by
  intro l
  induction l with
  | nil => intro db _ _ s; rfl
  | cons p rest ih =>
    intro db hkey hne s
    rw [List.foldl_cons]
    rw [ih _ (fun q hq => hkey q (List.mem_cons_of_mem _ hq))
      (fun q hq => hne q (List.mem_cons_of_mem _ hq))]
    exact handleStep_profile_other now insF delF db p k s
      (hkey p (List.mem_cons_self _ _)) (hne p (List.mem_cons_self _ _))

/-- Effect of the loop iteration for key `k` itself: either nothing
happens (unresolvable source or failing insert), or exactly one augmented
copy of the dict's contact is appended to the quarantine and at most the
first `k`-matching document of that contact's source collection is
removed; all other collections keep their `k`-profile. -/
theorem handleStep_profile_self (now : Nat) (insF delF : Option String → Bool)
    (db : DB) (p : Option String × Contact) (k : Option String)
    (hkeq : p.1 = k) (hkey : p.1 = pyGetEmail p.2)
    (hnf : p.2.collection_source ≠ some "failed") :
    (∀ s, matchingDocs ((handleStep now insF delF db p) s) k = matchingDocs (db s) k) ∨
    (∃ src, p.2.collection_source = some src ∧ src ≠ "failed" ∧
      matchingDocs ((handleStep now insF delF db p) "failed") k =
        matchingDocs (db "failed") k ++ [augmentFailed p.2 now] ∧
      (matchingDocs ((handleStep now insF delF db p) src) k = matchingDocs (db src) k ∨
       matchingDocs ((handleStep now insF delF db p) src) k =
         (matchingDocs (db src) k).drop 1) ∧
      (∀ s, s ≠ "failed" → s ≠ src →
        matchingDocs ((handleStep now insF delF db p) s) k = matchingDocs (db s) k)) := by
  unfold handleStep
  cases hsrc : p.2.collection_source with
  | none => left; intro s; rfl
  | some src =>
    dsimp only
    by_cases hse : src = ""
    · rw [if_pos hse]; left; intro s; rfl
    · rw [if_neg hse]
      by_cases hins : insF p.1 = true
      · rw [if_pos hins]; left; intro s; rfl
      · rw [if_neg hins]
        have hsf : src ≠ "failed" := fun h => hnf (h ▸ hsrc)
        have haug : emailFilterMatch (augmentFailed p.2 now) k = true := by
          rw [← hkeq, hkey]
          exact emailFilterMatch_self _
        have hdb1f : (dbUpdate db "failed" (fun docs => docs ++ [augmentFailed p.2 now]))
            "failed" = db "failed" ++ [augmentFailed p.2 now] := by
          unfold dbUpdate
          rw [if_pos rfl]
        have hdb1o : ∀ t, t ≠ "failed" →
            (dbUpdate db "failed" (fun docs => docs ++ [augmentFailed p.2 now])) t = db t := by
          intro t ht
          unfold dbUpdate
          rw [if_neg ht]
        by_cases hdel : delF p.1 = true
        · rw [if_pos hdel]
          right
          refine ⟨src, rfl, hsf, ?_, ?_, ?_⟩
          · rw [hdb1f]
            exact filter_append_single_true _ _ _ haug
          · left
            rw [hdb1o src hsf]
          · intro s hs1 _
            rw [hdb1o s hs1]
        · rw [if_neg hdel]
          right
          refine ⟨src, rfl, hsf, ?_, ?_, ?_⟩
          · have : (dbUpdate (dbUpdate db "failed"
                (fun docs => docs ++ [augmentFailed p.2 now])) src
                (fun docs => docs.eraseP (fun d => emailFilterMatch d p.1))) "failed" =
                db "failed" ++ [augmentFailed p.2 now] := by
              unfold dbUpdate
              rw [if_neg (fun h => hsf h.symm)]
              rw [if_pos rfl]
            rw [this]
            exact filter_append_single_true _ _ _ haug
          · right
            have : (dbUpdate (dbUpdate db "failed"
                (fun docs => docs ++ [augmentFailed p.2 now])) src
                (fun docs => docs.eraseP (fun d => emailFilterMatch d p.1))) src =
                (db src).eraseP (fun d => emailFilterMatch d p.1) := by
              unfold dbUpdate
              rw [if_pos rfl, if_neg hsf]
            rw [this, hkeq]
            exact filter_eraseP_self _ _
          · intro s hs1 hs2
            have : (dbUpdate (dbUpdate db "failed"
                (fun docs => docs ++ [augmentFailed p.2 now])) src
                (fun docs => docs.eraseP (fun d => emailFilterMatch d p.1))) s = db s := by
              unfold dbUpdate
              rw [if_neg hs2, if_neg hs1]
            rw [this]

/-- Per-key effect of the whole `email_to_contact` loop, by cases on
whether the dict holds an entry for the key. -/
theorem foldSteps_profile (now : Nat) (insF delF : Option String → Bool) (k : Option String) :
    ∀ (l : List (Option String × Contact)) (db : DB),
      (l.map Prod.fst).Nodup →
      (∀ p ∈ l, p.1 = pyGetEmail p.2) →
      (∀ p ∈ l, p.2.collection_source ≠ some "failed") →
      (match entryLookup l k with
       | none => ∀ s, matchingDocs ((l.foldl (handleStep now insF delF) db) s) k =
           matchingDocs (db s) k
       | some c =>
         (∀ s, matchingDocs ((l.foldl (handleStep now insF delF) db) s) k =
             matchingDocs (db s) k) ∨
         (∃ src, c.collection_source = some src ∧ src ≠ "failed" ∧
           matchingDocs ((l.foldl (handleStep now insF delF) db) "failed") k =
             matchingDocs (db "failed") k ++ [augmentFailed c now] ∧
           (matchingDocs ((l.foldl (handleStep now insF delF) db) src) k =
               matchingDocs (db src) k ∨
            matchingDocs ((l.foldl (handleStep now insF delF) db) src) k =
              (matchingDocs (db src) k).drop 1) ∧
           (∀ s, s ≠ "failed" → s ≠ src →
             matchingDocs ((l.foldl (handleStep now insF delF) db) s) k =
               matchingDocs (db s) k))) := by
  intro l
  induction l with
  | nil =>
    intro db _ _ _
    exact fun s => rfl
  | cons p rest ih =>
    intro db hnd hkey hnf
    have hndr : (rest.map Prod.fst).Nodup := (List.nodup_cons.mp (by simpa using hnd)).2
    have hkeyr := fun q hq => hkey q (List.mem_cons_of_mem _ hq)
    have hnfr := fun q hq => hnf q (List.mem_cons_of_mem _ hq)
    rw [entryLookup_cons, List.foldl_cons]
    by_cases hpk : p.1 = k
    · rw [if_pos hpk]
      dsimp only
      have hknotin : ∀ q ∈ rest, q.1 ≠ k := by
        intro q hq hqk
        have hp1 : p.1 ∉ rest.map Prod.fst := (List.nodup_cons.mp (by simpa using hnd)).1
        exact hp1 (hpk ▸ hqk ▸ List.mem_map_of_mem Prod.fst hq)
      have hfoldr := fold_profile_nokey now insF delF k rest
        (handleStep now insF delF db p) hkeyr hknotin
      rcases handleStep_profile_self now insF delF db p k hpk
          (hkey p (List.mem_cons_self _ _)) (hnf p (List.mem_cons_self _ _)) with
        hid | ⟨src, h1, h2, h3, h4, h5⟩
      · left
        intro s
        rw [hfoldr s, hid s]
      · right
        refine ⟨src, h1, h2, ?_, ?_, ?_⟩
        · rw [hfoldr "failed", h3]
        · rcases h4 with h4 | h4
          · left; rw [hfoldr src, h4]
          · right; rw [hfoldr src, h4]
        · intro s hs1 hs2
          rw [hfoldr s, h5 s hs1 hs2]
    · rw [if_neg hpk]
      have hstep : ∀ s, matchingDocs ((handleStep now insF delF db p) s) k =
          matchingDocs (db s) k := fun s =>
        handleStep_profile_other now insF delF db p k s (hkey p (List.mem_cons_self _ _)) hpk
      have hmain := ih (handleStep now insF delF db p) hndr hkeyr hnfr
      cases hl : entryLookup rest k with
      | none =>
        rw [hl] at hmain
        intro s
        rw [hmain s, hstep s]
      | some c =>
        rw [hl] at hmain
        rcases hmain with hid | ⟨src, h1, h2, h3, h4, h5⟩
        · left
          intro s
          rw [hid s, hstep s]
        · right
          refine ⟨src, h1, h2, ?_, ?_, ?_⟩
          · rw [h3, hstep "failed"]
          · rcases h4 with h4 | h4
            · left; rw [h4, hstep src]
            · right; rw [h4, hstep src]
          · intro s hs1 hs2
            rw [h5 s hs1 hs2, hstep s]

/-- C10 (amended): `handle_failed_contacts` deduplicates by email; per
distinct failed email either nothing happens (no resolvable source, or
the insert fails) or exactly one quarantine copy is inserted — a copy of
the LAST processed contact bearing that email — and at most the FIRST
document matching that email is removed from that contact's source
collection (deletion is keyed by email, so the removed document may be a
different record, e.g. an earlier duplicate); all other collections keep
their documents for that email. -/
theorem c10_amended (failedL : List (Option String)) (processed : List Contact) (now : Nat)
    (insF delF : Option String → Bool) (db : DB)
    (hsrc : ∀ c ∈ processed, c.collection_source ≠ some "failed") (k : Option String) :
    (∀ s, matchingDocs ((handle_failed_contacts failedL processed now insF delF db) s) k =
        matchingDocs (db s) k) ∨
    (∃ c src, lastFailedContact processed failedL k = some c ∧
      c.collection_source = some src ∧ src ≠ "failed" ∧
      matchingDocs ((handle_failed_contacts failedL processed now insF delF db) "failed") k =
        matchingDocs (db "failed") k ++ [augmentFailed c now] ∧
      (matchingDocs ((handle_failed_contacts failedL processed now insF delF db) src) k =
          matchingDocs (db src) k ∨
       matchingDocs ((handle_failed_contacts failedL processed now insF delF db) src) k =
         (matchingDocs (db src) k).drop 1) ∧
      (∀ s, s ≠ "failed" → s ≠ src →
        matchingDocs ((handle_failed_contacts failedL processed now insF delF db) s) k =
          matchingDocs (db s) k)) := by
  unfold handle_failed_contacts
  by_cases hfe : failedL.isEmpty
  · rw [if_pos hfe]
    left
    intro s
    rfl
  · rw [if_neg hfe]
    have hmain := foldSteps_profile now insF delF k (buildFailedMap processed failedL) db
      (buildFailedMap_keys_nodup processed failedL)
      (fun p hp => (buildFailedMap_inv processed failedL p hp).1)
      (fun p hp => hsrc p.2 (buildFailedMap_inv processed failedL p hp).2.2)
    rw [buildFailedMap_lookup] at hmain
    cases hl : lastFailedContact processed failedL k with
    | none =>
      rw [hl] at hmain
      left
      exact hmain
    | some c =>
      rw [hl] at hmain
      rcases hmain with hid | ⟨src, h1, h2, h3, h4, h5⟩
      · left
        exact hid
      · right
        exact ⟨c, src, rfl, h1, h2, h3, h4, h5⟩

/-- Witness for C10 (amended) on the duplicate-email scenario. -/
theorem c10_amended_witness :
    (∀ c ∈ [contactDupA, contactDupB], c.collection_source ≠ some "failed") ∧
    ((∀ s, matchingDocs ((handle_failed_contacts [some "x@y.com"]
          [contactDupA, contactDupB] 5 (fun _ => false) (fun _ => false) dbDup) s)
          (some "x@y.com") =
        matchingDocs (dbDup s) (some "x@y.com")) ∨
     (∃ c src, lastFailedContact [contactDupA, contactDupB] [some "x@y.com"]
          (some "x@y.com") = some c ∧
       c.collection_source = some src ∧ src ≠ "failed" ∧
       matchingDocs ((handle_failed_contacts [some "x@y.com"]
           [contactDupA, contactDupB] 5 (fun _ => false) (fun _ => false) dbDup) "failed")
           (some "x@y.com") =
         matchingDocs (dbDup "failed") (some "x@y.com") ++ [augmentFailed c 5] ∧
       (matchingDocs ((handle_failed_contacts [some "x@y.com"]
            [contactDupA, contactDupB] 5 (fun _ => false) (fun _ => false) dbDup) src)
            (some "x@y.com") =
           matchingDocs (dbDup src) (some "x@y.com") ∨
        matchingDocs ((handle_failed_contacts [some "x@y.com"]
            [contactDupA, contactDupB] 5 (fun _ => false) (fun _ => false) dbDup) src)
            (some "x@y.com") =
          (matchingDocs (dbDup src) (some "x@y.com")).drop 1) ∧
       (∀ s, s ≠ "failed" → s ≠ src →
         matchingDocs ((handle_failed_contacts [some "x@y.com"]
             [contactDupA, contactDupB] 5 (fun _ => false) (fun _ => false) dbDup) s)
             (some "x@y.com") =
           matchingDocs (dbDup s) (some "x@y.com")))) :=
  ⟨by decide,
   c10_amended [some "x@y.com"] [contactDupA, contactDupB] 5 (fun _ => false)
     (fun _ => false) dbDup (by decide) (some "x@y.com")⟩

/-- Helper: `Nat.toDigitsCore` with sufficient fuel produces the decimal digits. -/
theorem toDigitsCore_eq (n : Nat) :
    ∀ (fuel : Nat) (ds : List Char), n < fuel →
      Nat.toDigitsCore 10 fuel n ds = decDigits n ++ ds := by
  induction n using Nat.strong_induction_on with
  | _ n ih =>
    intro fuel ds h
    match fuel with
    | f + 1 =>
      rw [Nat.toDigitsCore]
      by_cases h0 : n / 10 = 0
      · have hlt : n < 10 := by omega
        rw [if_pos h0, decDigits, if_pos hlt, Nat.mod_eq_of_lt hlt]
        rfl
      · have hge : ¬n < 10 := by omega
        rw [if_neg h0]
        rw [ih (n / 10) (Nat.div_lt_self (by omega) (by omega)) f (Nat.digitChar (n % 10) :: ds)
          (by have := Nat.div_lt_self (show 0 < n by omega) (show 1 < 10 by omega); omega)]
        conv_rhs => rw [decDigits]
        rw [if_neg hge, List.append_assoc]
        rfl

theorem repr_four_digits (y : Nat) (h1 : 1000 ≤ y) (h2 : y ≤ 9999) :
    (toString y).data = [Nat.digitChar (y / 1000), Nat.digitChar (y / 100 % 10),
      Nat.digitChar (y / 10 % 10), Nat.digitChar (y % 10)] := by
  show (Nat.repr y).data = _
  unfold Nat.repr Nat.toDigits
  rw [toDigitsCore_eq y (y + 1) [] (Nat.lt_succ_self y)]
  have e1 : y / 10 / 10 = y / 100 := by omega
  have e2 : y / 100 / 10 = y / 1000 := by omega
  rw [decDigits, if_neg (by omega)]
  rw [decDigits, if_neg (by omega), e1]
  rw [decDigits, if_neg (by omega), e2]
  rw [decDigits, if_pos (by omega)]
  rfl

theorem digitChar_isDigit (d : Nat) (h : d < 10) : (Nat.digitChar d).isDigit = true := by
  interval_cases d <;> decide

theorem digitChar_not_ws (d : Nat) (h : d < 10) : isWsChar (Nat.digitChar d) = false := by
  interval_cases d <;> decide

theorem digitVal_digitChar (d : Nat) (h : d < 10) : digitVal (Nat.digitChar d) = d := by
  interval_cases d <;> decide

theorem firstSome_single {α : Type} (x : Option α) : firstSome [x] = x := by
  cases x <;> rfl

theorem matchDirs_step (d : Dir) (ds : List Dir) (p p2 : Parts) (cs cs2 : List Char)
    (h : dirStep d p cs = [(p2, cs2)]) :
    matchDirs (d :: ds) p cs = matchDirs ds p2 cs2 := by
  rw [matchDirs, h]
  rw [List.map_cons, List.map_nil]
  exact firstSome_single _

set_option maxHeartbeats 1000000 in
theorem matchF1 (a b c d : Char) (ha : a.isDigit = true) (hb : b.isDigit = true)
    (hc : c.isDigit = true) (hd : d.isDigit = true) (hwa : isWsChar a = false) :
    strptimeRun "%A %B %d %I%p %Y" ("Tuesday June 3 7PM ".data ++ [a, b, c, d]) =
      some ⟨some (digitVal a * 1000 + digitVal b * 100 + digitVal c * 10 + digitVal d),
            some 6, some 3, some 7, none, some true⟩ := by
  have hstep9 : dirStep Dir.ws ⟨none, some 6, some 3, some 7, none, some true⟩
      (' ' :: [a, b, c, d]) =
      [(⟨none, some 6, some 3, some 7, none, some true⟩, [a, b, c, d])] := by
    simp [dirStep, candWs, List.takeWhile_cons, hwa, show isWsChar ' ' = true from rfl,
      show List.range 1 = [0] from rfl]
  have hstep10 : dirStep Dir.dY ⟨none, some 6, some 3, some 7, none, some true⟩ [a, b, c, d] =
      [(⟨some (digitVal a * 1000 + digitVal b * 100 + digitVal c * 10 + digitVal d),
         some 6, some 3, some 7, none, some true⟩, [])] := by
    simp [dirStep, candY, ha, hb, hc, hd]
  have hrun : matchDirs
      [Dir.dA, Dir.ws, Dir.dB, Dir.ws, Dir.dd, Dir.ws, Dir.dI, Dir.dp, Dir.ws, Dir.dY]
      Parts.empty ("Tuesday June 3 7PM ".data ++ [a, b, c, d]) =
      some (⟨some (digitVal a * 1000 + digitVal b * 100 + digitVal c * 10 + digitVal d),
             some 6, some 3, some 7, none, some true⟩, []) := by
    refine (matchDirs_step _ _ _ _ _ _ (by rfl)).trans ?_
    refine (matchDirs_step _ _ _ _ _ _ (by rfl)).trans ?_
    refine (matchDirs_step _ _ _ _ _ _ (by rfl)).trans ?_
    refine (matchDirs_step _ _ _ _ _ _ (by rfl)).trans ?_
    refine (matchDirs_step _ _ _ _ _ _ (by rfl)).trans ?_
    refine (matchDirs_step _ _ _ _ _ _ (by rfl)).trans ?_
    refine (matchDirs_step _ _ _ _ _ _ (by rfl)).trans ?_
    refine (matchDirs_step _ _ _ _ _ _ (by rfl)).trans ?_
    refine (matchDirs_step _ _ _ _ _ _ hstep9).trans ?_
    refine (matchDirs_step _ _ _ _ _ _ hstep10).trans ?_
    rfl
  unfold strptimeRun
  rw [show fmtDirs "%A %B %d %I%p %Y".toList =
      [Dir.dA, Dir.ws, Dir.dB, Dir.ws, Dir.dd, Dir.ws, Dir.dI, Dir.dp, Dir.ws, Dir.dY] from rfl]
  rw [hrun]

/-- C4 (amended): `"Tuesday June 3rd 7PM"` parses — via ordinal-suffix
stripping and current-year injection — to June 3 of the (four-digit)
current year; but `"June 3, 2024"` does NOT parse to 2024-06-03: the only
month-name format carries a mandatory time component, so the result is
`None` regardless of the current year. -/
theorem c4_amended : ∀ y : Nat,
    (1000 ≤ y → y ≤ 9999 →
      parseShowDateOpt y (PyVal.str "Tuesday June 3rd 7PM") = some ⟨y, 6, 3⟩) ∧
    parseShowDateOpt y (PyVal.str "June 3, 2024") = none := by
  intro y
  constructor
  · intro h1 h2
    have hd : (toString y).data = [Nat.digitChar (y / 1000), Nat.digitChar (y / 100 % 10),
        Nat.digitChar (y / 10 % 10), Nat.digitChar (y % 10)] := repr_four_digits y h1 h2
    have hm := matchF1 (Nat.digitChar (y / 1000)) (Nat.digitChar (y / 100 % 10))
      (Nat.digitChar (y / 10 % 10)) (Nat.digitChar (y % 10))
      (digitChar_isDigit _ (by omega)) (digitChar_isDigit _ (by omega))
      (digitChar_isDigit _ (by omega)) (digitChar_isDigit _ (by omega))
      (digitChar_not_ws _ (by omega))
    have hv : digitVal (Nat.digitChar (y / 1000)) * 1000 +
        digitVal (Nat.digitChar (y / 100 % 10)) * 100 +
        digitVal (Nat.digitChar (y / 10 % 10)) * 10 + digitVal (Nat.digitChar (y % 10)) = y := by
      rw [digitVal_digitChar _ (by omega), digitVal_digitChar _ (by omega),
        digitVal_digitChar _ (by omega), digitVal_digitChar _ (by omega)]
      omega
    rw [hv] at hm
    have hrun : strptimeRun "%A %B %d %I%p %Y"
        ("Tuesday June 3 7PM" ++ " " ++ toString y).toList =
        some ⟨some y, some 6, some 3, some 7, none, some true⟩ := by
      show strptimeRun _ ("Tuesday June 3 7PM" ++ " " ++ toString y).data = _
      rw [show ("Tuesday June 3 7PM" ++ " " ++ toString y).data =
          "Tuesday June 3 7PM ".data ++ (toString y).data from rfl, hd]
      exact hm
    have hptd : partsToDate ⟨some y, some 6, some 3, some 7, none, some true⟩ =
        some ⟨y, 6, 3⟩ := by
      unfold partsToDate
      simp only [Option.getD_some]
      rw [if_pos]
      simp only [Bool.and_eq_true, decide_eq_true_eq]
      have h30 : daysInMonth y 6 = 30 := rfl
      rw [h30]
      omega
    have hsd : strptimeDate (PyVal.str ("Tuesday June 3 7PM" ++ " " ++ toString y))
        "%A %B %d %I%p %Y" = .ok ⟨y, 6, 3⟩ := by
      unfold strptimeDate
      dsimp only
      rw [hrun]
      dsimp only
      rw [hptd]
    have hbody : parseShowDateBody y (PyVal.str "Tuesday June 3rd 7PM") =
        .ok (some ⟨y, 6, 3⟩) := by
      unfold parseShowDateBody
      rw [show tryFormats (PyVal.str "Tuesday June 3rd 7PM") yearFormats =
          .ok none from rfl]
      dsimp only
      rw [show ordinalClean (PyVal.str "Tuesday June 3rd 7PM") =
          .ok "Tuesday June 3 7PM" from rfl]
      dsimp only
      rw [show timeFormats.map (fun tf => "%A %B %d " ++ tf ++ " %Y") =
          ["%A %B %d %I%p %Y", "%A %B %d %I:%M%p %Y"] from rfl]
      rw [tryFormats.eq_def]
      dsimp only
      rw [hsd]
    unfold parseShowDateOpt parse_show_date
    rw [hbody]
  · rfl

/-- Witness for C4 (amended) at the concrete year 2025. -/
theorem c4_amended_witness :
    1000 ≤ 2025 ∧ 2025 ≤ 9999 ∧
    parseShowDateOpt 2025 (PyVal.str "Tuesday June 3rd 7PM") = some ⟨2025, 6, 3⟩ ∧
    parseShowDateOpt 2025 (PyVal.str "June 3, 2024") = none :=
  ⟨by decide, by decide, (c4_amended 2025).1 (by decide) (by decide), (c4_amended 2025).2⟩
